import Mathlib

/-!
Book backend (`tutorial_3/backend/mainNoGet.go`).

A shallow embedding of the Go program: the package-level variables `books`
and `id` and the output of the standard logger form an explicit `World`
that every function receives and returns; the `http.ResponseWriter` is a
record of what has been written to it.  Go `int` is taken to be 64 bits wide.
-/

namespace Books

/-! ## Data model -/

/-- The `book` struct (lines 23-27). -/
structure book where
  Title : String
  Author : String
  Id : Int
deriving DecidableEq

/-- The zero value `book{}`. -/
def book.zero : book := ⟨"", "", 0⟩

/-- The two sentinel errors of `strconv`: `ErrSyntax` and `ErrRange`. -/
inductive NumErr where
  | ErrSyntax
  | ErrRange
deriving DecidableEq

/-- The error value `*strconv.NumError` (the only `error` this program creates). -/
structure NumError where
  Func : String
  Num : String
  Err : NumErr
deriving DecidableEq

/-- The `handlerError` struct (lines 16-20); `Error` is a Go interface value, `none` is nil. -/
structure handlerError where
  Error : Option NumError
  Message : String
  Code : Int
deriving DecidableEq

/-- An `interface{}` value as a handler returns it: nil, a `[]book`, a `book`, or any
other Go value, of which only the result of `json.Marshal` is kept (`none` when
`json.Marshal` returns an error, as it does for a channel or a function). -/
inductive Value where
  | nil
  | books (bs : List book)
  | book (b : book)
  | other (marshalled : Option String)
deriving DecidableEq

/-- An argument of a `log.Printf` call. -/
inductive LogArg where
  | str (s : String)
  | int (n : Int)
  | err (e : Option NumError)
deriving DecidableEq

/-- One call `log.Printf(format, args...)`, kept unrendered. -/
structure LogEntry where
  format : String
  args : List LogArg
deriving DecidableEq

/-- The process state: the package variables `books` (line 30) and `id` (line 97) and
what has been given to the standard logger. -/
structure World where
  books : List book
  id : Int
  log : List LogEntry
deriving DecidableEq

/-- The fields of `*http.Request` the program reads; `Vars` is `mux.Vars(r)`. -/
structure Request where
  RemoteAddr : String
  Method : String
  URL : String
  Vars : List (String × String)
deriving DecidableEq

/-- What has been written to an `http.ResponseWriter`: the header map, the status code of the
first `WriteHeader` (`none` while no header has been written) and the body bytes. -/
structure ResponseWriter where
  Header : List (String × String)
  Code : Option Int
  Body : String
deriving DecidableEq

/-- A response writer as the server hands it to a handler: nothing written yet. -/
def ResponseWriter.fresh : ResponseWriter := ⟨[], none, ""⟩

/-- The status line of the response: the code written, 200 when a body was written
without an explicit `WriteHeader`. -/
def ResponseWriter.status (w : ResponseWriter) : Int := w.Code.getD 200

/-! ## Go `int` -/

/-- Smallest value of a 64-bit Go `int`. -/
def minInt : Int := -9223372036854775808

/-- Largest value of a 64-bit Go `int`. -/
def maxInt : Int := 9223372036854775807

/-- Two's-complement wrap-around of 64-bit `int` arithmetic. -/
def wrapInt (n : Int) : Int := (n + 9223372036854775808) % 18446744073709551616 - 9223372036854775808

/-! ## Library functions the program calls -/

/-- The digit loop of `strconv.ParseUint(s, 10, 64)`: a byte that is no decimal digit is a
syntax error, a value above `1<<64 - 1` a range error. -/
def parseUintLoop : List Char → Nat → Except NumErr Nat
  | [], n => .ok n
  | c :: cs, n =>
    if c.isDigit then
      if n ≥ 1844674407370955162 then .error .ErrRange
      else
        let n1 := n * 10 + (c.toNat - 48)
        if n1 > 18446744073709551615 then .error .ErrRange
        else parseUintLoop cs n1
    else .error .ErrSyntax

/-- Go `strconv.Atoi(s)`, that is `ParseInt(s, 10, 0)` converted to `int`: an optional sign,
then one or more decimal digits, and the value must fit a 64-bit `int`. -/
def Atoi (s : String) : Except NumError Int :=
  match s.data with
  | [] => .error ⟨"Atoi", s, .ErrSyntax⟩
  | c :: cs =>
    let neg := decide (c = '-')
    let digits := if c = '+' ∨ c = '-' then cs else c :: cs
    if digits = [] then .error ⟨"Atoi", s, .ErrSyntax⟩
    else
      match parseUintLoop digits 0 with
      | .error e => .error ⟨"Atoi", s, e⟩
      | .ok un =>
        if !neg && un ≥ 9223372036854775808 then .error ⟨"Atoi", s, .ErrRange⟩
        else if neg && un > 9223372036854775808 then .error ⟨"Atoi", s, .ErrRange⟩
        else .ok (if neg then -(un : Int) else (un : Int))

/-- Map read `mux.Vars(r)[key]`: the empty string when the key is absent. -/
def muxVars (r : Request) (key : String) : String := (r.Vars.lookup key).getD ""

/-- The call `w.Header().Set(key, value)`. -/
def ResponseWriter.HeaderSet (w : ResponseWriter) (key value : String) : ResponseWriter :=
  { w with Header := (key, value) :: w.Header.filter (fun kv => kv.1 ≠ key) }

/-- The call `w.Header().Del(key)`. -/
def ResponseWriter.HeaderDel (w : ResponseWriter) (key : String) : ResponseWriter :=
  { w with Header := w.Header.filter (fun kv => kv.1 ≠ key) }

/-- The call `w.WriteHeader(code)` for a final status code (200 to 999): only the first call
sets the status. The program passes 400, 404 and 500. For other codes `net/http` behaves
differently (it panics outside 100 to 999 and sends 100 to 199 as an informational header);
those codes are outside the model, and the properties below are stated for final status
codes only. -/
def ResponseWriter.WriteHeader (w : ResponseWriter) (code : Int) : ResponseWriter :=
  match w.Code with
  | none => { w with Code := some code }
  | some _ => w

/-- The call `w.Write(bytes)` under a status that allows a body: writes the header with
status 200 when none was written yet, then appends to the body. Under 204 and 304
`net/http` refuses the bytes; those two are outside the model, and the properties below
that speak of a body are stated for the other final status codes only. -/
def ResponseWriter.Write (w : ResponseWriter) (bytes : String) : ResponseWriter :=
  let w1 := w.WriteHeader 200
  { w1 with Body := w1.Body ++ bytes }

/-- Go `http.Error(w, error, code)`: a plain-text reply; the message is printed with
`fmt.Fprintln`, so a newline follows it. -/
def httpError (w : ResponseWriter) (error : String) (code : Int) : ResponseWriter :=
  let w1 := w.HeaderDel "Content-Length"
  let w2 := w1.HeaderSet "Content-Type" "text/plain; charset=utf-8"
  let w3 := w2.HeaderSet "X-Content-Type-Options" "nosniff"
  let w4 := w3.WriteHeader code
  w4.Write (error ++ "\n")

/-- The escape `encoding/json` writes for one character of a string (HTML escaping on, as in
`json.Marshal`; Go 1.22 and later, earlier releases write backspace and form feed as
`\u0008` and `\u000c`). -/
def encodeChar (c : Char) : List Char :=
  if c = '\\' ∨ c = '"' then ['\\', c]
  else if c.toNat = 8 then ['\\', 'b']
  else if c.toNat = 12 then ['\\', 'f']
  else if c = '\n' then ['\\', 'n']
  else if c = '\r' then ['\\', 'r']
  else if c = '\t' then ['\\', 't']
  else if c.toNat < 32 ∨ c = '<' ∨ c = '>' ∨ c = '&' then
    ['\\', 'u', '0', '0', Nat.digitChar (c.toNat / 16), Nat.digitChar (c.toNat % 16)]
  else if c.toNat = 8232 then ['\\', 'u', '2', '0', '2', '8']
  else if c.toNat = 8233 then ['\\', 'u', '2', '0', '2', '9']
  else [c]

/-- A Go string as `encoding/json` writes it: quoted and escaped. -/
def encodeString (s : String) : String :=
  "\"" ++ String.mk (s.data.flatMap encodeChar) ++ "\""

/-- The `json.Marshal` output for a `book`: the fields in declaration order under their
`json` tags. -/
def marshalBook (b : book) : String :=
  "\x7b\"title\":" ++ encodeString b.Title ++ ",\"author\":" ++ encodeString b.Author
    ++ ",\"id\":" ++ toString b.Id ++ "\x7d"

/-- The `json.Marshal` output for a non-nil `[]book`: a JSON array, elements in slice order. -/
def marshalBooks (bs : List book) : String :=
  "[" ++ ",".intercalate (bs.map marshalBook) ++ "]"

/-- Go `json.Marshal(v)`; `none` stands for a non-nil error. -/
def jsonMarshal : Value → Option String
  | .nil => some "null"
  | .books bs => some (marshalBooks bs)
  | .book b => some (marshalBook b)
  | .other m => m

/-- The call `log.Printf(format, args...)` on the standard logger. -/
def logPrintf (σ : World) (format : String) (args : List LogArg) : World :=
  { σ with log := σ.log ++ [⟨format, args⟩] }

/-! ## The program -/

/-- What a call of a `handler` leaves behind: its two return values, the response writer and
the process state after the call. -/
structure Outcome where
  response : Value
  err : Option handlerError
  w : ResponseWriter
  world : World

/-- The type `handler` (line 33). -/
abbrev handler := ResponseWriter → Request → World → Outcome

/-- The method `ServeHTTP` attached to `handler` (lines 36-65). -/
def ServeHTTP (fn : handler) (w : ResponseWriter) (r : Request) (σ : World) :
    ResponseWriter × World :=
  let out := fn w r σ
  match out.err with
  | some err =>
    let σ1 := logPrintf out.world "ERROR: %v\n" [.err err.Error]
    (httpError out.w ("\x7b\"error\":\"" ++ err.Message ++ "\"\x7d") err.Code, σ1)
  | none =>
    if out.response = Value.nil then
      let σ1 := logPrintf out.world "ERROR: response from method is nil\n" []
      (httpError out.w "Internal server error. Check the logs." 500, σ1)
    else
      match jsonMarshal out.response with
      | none => (httpError out.w "Error marshalling JSON" 500, out.world)
      | some bytes =>
        let w1 := out.w.HeaderSet "Content-Type" "application/json"
        let w2 := w1.Write bytes
        (w2, logPrintf out.world "%s %s %s %d"
          [.str r.RemoteAddr, .str r.Method, .str r.URL, .int 200])

/-- The handler `listBooks` (lines 67-69). -/
def listBooks : handler := fun w _ σ => ⟨.books σ.books, none, w, σ⟩

/-- The loop of `getBookById` from slice index `i` on. -/
def getBookByIdFrom : List book → Int → Int → book × Int
  | [], _, _ => (book.zero, -1)
  | b :: rest, id, i => if b.Id = id then (b, i) else getBookByIdFrom rest id (i + 1)

/-- The function `getBookById` (lines 88-95): the first book with that id and its index, or
the zero book and -1. -/
def getBookById (id : Int) (σ : World) : (book × Int) × World :=
  (getBookByIdFrom σ.books id 0, σ)

/-- The handler `getBook` (lines 71-85). -/
def getBook : handler := fun w r σ =>
  let param := muxVars r "id"
  match Atoi param with
  | .error e => ⟨.nil, some ⟨some e, "Id should be an integer", 400⟩, w, σ⟩
  | .ok id =>
    let res := getBookById id σ
    if res.1.2 < 0 then
      ⟨.nil, some ⟨none, "Could not find book " ++ param, 404⟩, w, res.2⟩
    else ⟨.book res.1.1, none, w, res.2⟩

/-- The function `getNextId` (lines 100-103): increments `id` and returns it. -/
def getNextId (σ : World) : Int × World :=
  let σ1 := { σ with id := wrapInt (σ.id + 1) }
  (σ1.id, σ1)

/-- One bootstrap statement `books = append(books, book{title, author, getNextId()})`. -/
def appendBook (title author : String) (σ : World) : World :=
  let res := getNextId σ
  { res.2 with books := res.2.books ++ [⟨title, author, res.1⟩] }

/-- The state the program starts in: `books = make([]book, 0)`, `id = 0`, nothing logged. -/
def World.init : World := ⟨[], 0, []⟩

/-- The four bootstrap statements of `main` (lines 124-127). -/
def bootstrap (σ : World) : World :=
  appendBook "Pragmatic Programmer" "David Thomas"
    (appendBook "World War Z" "Max Brooks"
      (appendBook "Code Complete" "Steve McConnell"
        (appendBook "Ender's Game" "Orson Scott Card" σ)))

/-- A request for the route `/books/{id}` with the given path segment. -/
def Request.books (seg : String) : Request :=
  ⟨"127.0.0.1:40000", "GET", "/books/" ++ seg, [("id", seg)]⟩

/-! ## Definitions used to state the properties -/

/-- The bootstrap statement run once per (title, author) pair, in list order. -/
def appendBooks : List (String × String) → World → World
  | [], σ => σ
  | ta :: rest, σ => appendBooks rest (appendBook ta.1 ta.2 σ)

/-- The same request served `n` times in a row, each time on a fresh response writer: the
responses in order and the state afterwards. -/
def repeatRequest (fn : handler) (r : Request) : Nat → World → List ResponseWriter × World
  | 0, σ => ([], σ)
  | n + 1, σ =>
    let res := ServeHTTP fn ResponseWriter.fresh r σ
    let rest := repeatRequest fn r n res.2
    (res.1 :: rest.1, rest.2)

/-- The log entries `ServeHTTP` itself adds once the handler has returned. -/
def emitted (fn : handler) (w : ResponseWriter) (r : Request) (σ : World) : List LogEntry :=
  (ServeHTTP fn w r σ).2.log.drop (fn w r σ).world.log.length

/-- The access-log call of line 64 for request `r` with the logged status `code`. -/
def accessLine (r : Request) (code : Int) : LogEntry :=
  ⟨"%s %s %s %d", [.str r.RemoteAddr, .str r.Method, .str r.URL, .int code]⟩

/-- A well-formed integer in the sense of the specification: an optional sign followed by one
or more decimal digits. -/
def wellFormedInteger (s : String) : Bool :=
  match s.data with
  | [] => false
  | c :: cs =>
    let ds := if c = '+' ∨ c = '-' then cs else c :: cs
    !ds.isEmpty && ds.all Char.isDigit

/-- The number a run of decimal digits denotes, continuing from `n`. -/
def digitsValue (ds : List Char) (n : Nat) : Nat :=
  ds.foldl (fun acc c => acc * 10 + (c.toNat - 48)) n

/-- The mathematical value of a well-formed integer. -/
def integerValue (s : String) : Int :=
  match s.data with
  | [] => 0
  | c :: cs =>
    if c = '-' then -(digitsValue cs 0 : Int)
    else if c = '+' then (digitsValue cs 0 : Int)
    else (digitsValue (c :: cs) 0 : Int)

/-- The records the bootstrap statement creates for the given (title, author) pairs when the
counter stands at `c`: the ids count up from `c + 1`. -/
def numbered : List (String × String) → Int → List book
  | [], _ => []
  | ta :: rest, c => ⟨ta.1, ta.2, c + 1⟩ :: numbered rest (c + 1)

/-- The entry `log.Printf("ERROR: response from method is nil\n")` of line 49. -/
def nilResponseLine : LogEntry := ⟨"ERROR: response from method is nil\n", []⟩

/-! ## JSON texts, to state what a body is -/

/-- A JSON value (RFC 8259); a number is kept as its text. -/
inductive Json where
  | null
  | bool (b : Bool)
  | num (text : String)
  | str (s : String)
  | arr (items : List Json)
  | obj (members : List (String × Json))

/-- JSON whitespace. -/
def isWs (c : Char) : Bool := c = ' ' || c = '\t' || c = '\n' || c = '\r'

def skipWs : List Char → List Char
  | [] => []
  | c :: cs => if isWs c then skipWs cs else c :: cs

def hexVal (c : Char) : Option Nat :=
  if c.isDigit then some (c.toNat - 48)
  else if 97 ≤ c.toNat ∧ c.toNat ≤ 102 then some (c.toNat - 87)
  else if 65 ≤ c.toNat ∧ c.toNat ≤ 70 then some (c.toNat - 55)
  else none

/-- The character a two-character escape stands for. -/
def unescape (e : Char) : Option Char :=
  if e = '"' then some '"'
  else if e = '\\' then some '\\'
  else if e = '/' then some '/'
  else if e = 'b' then some (Char.ofNat 8)
  else if e = 'f' then some (Char.ofNat 12)
  else if e = 'n' then some '\n'
  else if e = 'r' then some '\r'
  else if e = 't' then some '\t'
  else none

/-- A JSON string after its opening quote: the decoded text and the input after the closing
quote. -/
def parseString : List Char → List Char → Option (String × List Char)
  | [], _ => none
  | c :: cs, acc =>
    if c = '"' then some (String.mk acc.reverse, cs)
    else if c = '\\' then
      match cs with
      | [] => none
      | e :: rest =>
        if e = 'u' then
          match rest with
          | h1 :: h2 :: h3 :: h4 :: rest4 =>
            match hexVal h1, hexVal h2, hexVal h3, hexVal h4 with
            | some a, some b, some c, some d =>
              parseString rest4 (Char.ofNat (((a * 16 + b) * 16 + c) * 16 + d) :: acc)
            | _, _, _, _ => none
          | _ => none
        else
          match unescape e with
          | some x => parseString rest (x :: acc)
          | none => none
    else if c.toNat < 32 then none
    else parseString cs (c :: acc)

/-- A JSON number at the head of the input: its text and the input after it. -/
def parseNumber (cs : List Char) : Option (String × List Char) :=
  let r0 := match cs with
    | c :: r => if c = '-' then r else c :: r
    | [] => []
  let ip := r0.takeWhile Char.isDigit
  let r1 := r0.dropWhile Char.isDigit
  if ip = [] ∨ (ip.head? = some '0' ∧ 1 < ip.length) then none
  else
    let r2 : Option (List Char) := match r1 with
      | c :: r =>
        if c = '.' then
          if r.takeWhile Char.isDigit = [] then none else some (r.dropWhile Char.isDigit)
        else some (c :: r)
      | [] => some []
    match r2 with
    | none => none
    | some r2 =>
      let r3 : Option (List Char) := match r2 with
        | c :: r =>
          if c = 'e' ∨ c = 'E' then
            let r' := match r with
              | s :: t => if s = '+' ∨ s = '-' then t else s :: t
              | [] => []
            if r'.takeWhile Char.isDigit = [] then none else some (r'.dropWhile Char.isDigit)
          else some (c :: r)
        | [] => some []
      match r3 with
      | none => none
      | some r3 => some (String.mk (cs.take (cs.length - r3.length)), r3)

/-- What the parser is in the middle of: a value, the elements of an array after `[` or a
comma, or the members of an object after a left brace or a comma. -/
inductive Pending where
  | value
  | items (acc : List Json)
  | members (acc : List (String × Json))

/-- A JSON parser with fuel: the value read and the input after it. -/
def parseValue : Nat → Pending → List Char → Option (Json × List Char)
  | 0, _, _ => none
  | fuel + 1, .value, cs =>
    match skipWs cs with
    | [] => none
    | c :: r =>
      if c = '{' then
        match skipWs r with
        | '}' :: r1 => some (.obj [], r1)
        | r1 => parseValue fuel (.members []) r1
      else if c = '[' then
        match skipWs r with
        | ']' :: r1 => some (.arr [], r1)
        | r1 => parseValue fuel (.items []) r1
      else if c = '"' then
        match parseString r [] with
        | some (s, r1) => some (.str s, r1)
        | none => none
      else if c = 't' then
        match r with
        | 'r' :: 'u' :: 'e' :: r1 => some (.bool true, r1)
        | _ => none
      else if c = 'f' then
        match r with
        | 'a' :: 'l' :: 's' :: 'e' :: r1 => some (.bool false, r1)
        | _ => none
      else if c = 'n' then
        match r with
        | 'u' :: 'l' :: 'l' :: r1 => some (.null, r1)
        | _ => none
      else
        match parseNumber (c :: r) with
        | some (t, r1) => some (.num t, r1)
        | none => none
  | fuel + 1, .items acc, cs =>
    match parseValue fuel .value cs with
    | none => none
    | some (v, r) =>
      match skipWs r with
      | ',' :: r1 => parseValue fuel (.items (v :: acc)) r1
      | ']' :: r1 => some (.arr (v :: acc).reverse, r1)
      | _ => none
  | fuel + 1, .members acc, cs =>
    match skipWs cs with
    | '"' :: r =>
      match parseString r [] with
      | none => none
      | some (k, r1) =>
        match skipWs r1 with
        | ':' :: r2 =>
          match parseValue fuel .value r2 with
          | none => none
          | some (v, r3) =>
            match skipWs r3 with
            | ',' :: r4 => parseValue fuel (.members ((k, v) :: acc)) r4
            | '}' :: r4 => some (.obj ((k, v) :: acc).reverse, r4)
            | _ => none
        | _ => none
    | _ => none

/-- A whole text as one JSON value, whitespace allowed around it. -/
def parseJson (s : String) : Option Json :=
  match parseValue (2 * s.length + 3) .value s.data with
  | some (v, rest) => if skipWs rest = [] then some v else none
  | none => none

/-- The value under `error` when the text is a JSON object with exactly one member and that
member's key is `error`. -/
def errorObject? (body : String) : Option Json :=
  match parseJson body with
  | some (.obj [(k, v)]) => if k = "error" then some v else none
  | _ => none

/-- A message that needs no escaping inside a JSON string: no double quote, no backslash, no
control character. -/
def plainText (m : String) : Bool :=
  m.data.all (fun c => c != '"' && c != '\\' && decide (32 ≤ c.toNat))

/-- The JSON object of a `book`: the members `title`, `author` and `id` in that order. -/
def book.toJson (b : book) : Json :=
  .obj [("title", .str b.Title), ("author", .str b.Author), ("id", .num (toString b.Id))]

/-- A code `net/http` writes as the final status of the response: three digits and not
informational. -/
def finalStatus (code : Int) : Bool := decide (200 ≤ code ∧ code ≤ 999)

/-- A final status under which `net/http` accepts a body: every one but 204 and 304. -/
def statusWithBody (code : Int) : Bool :=
  finalStatus code && decide (code ≠ 204 ∧ code ≠ 304)

/-- A handler that returns the given values and touches neither the writer nor the state. -/
def constHandler (v : Value) (e : Option handlerError) : handler := fun w _ σ => ⟨v, e, w, σ⟩

/-! ## The record store: `getBookById` -/

/-- The loop of `getBookById` started at index `i`: either nothing matches, or the result is
the first matching element and its index. -/
theorem getBookByIdFrom_spec (bs : List book) (id i : Int) :
    ((getBookByIdFrom bs id i).2 = -1 ∧ (getBookByIdFrom bs id i).1 = book.zero ∧
        ∀ b ∈ bs, b.Id ≠ id) ∨
    (∃ k : Nat, k < bs.length ∧ (getBookByIdFrom bs id i).2 = i + k ∧
        bs[k]? = some (getBookByIdFrom bs id i).1 ∧ (getBookByIdFrom bs id i).1.Id = id ∧
        ∀ j, j < k → ∀ b, bs[j]? = some b → b.Id ≠ id) := by
  induction bs generalizing i with
  | nil => left; simp [getBookByIdFrom]
  | cons b rest ih =>
    by_cases hb : b.Id = id
    · right
      refine ⟨0, by simp, ?_⟩
      simp [getBookByIdFrom, hb]
    · rcases ih (i + 1) with ⟨h1, h2, h3⟩ | ⟨k, hk, h1, h2, h3, h4⟩
      · left
        simp only [getBookByIdFrom, hb, if_false]
        refine ⟨h1, h2, ?_⟩
        intro b' hb'
        rcases List.mem_cons.mp hb' with rfl | hmem
        · exact hb
        · exact h3 b' hmem
      · right
        refine ⟨k + 1, by simpa using hk, ?_⟩
        simp only [getBookByIdFrom, hb, if_false]
        refine ⟨by rw [h1]; push_cast; ring, by simpa using h2, h3, ?_⟩
        intro j hj b' hb'
        cases j with
        | zero => simp at hb'; subst hb'; exact hb
        | succ j => exact h4 j (by omega) b' (by simpa using hb')

/-- Claim C7. For every store and every id, `getBookById` returns `(b, i)` where either
`i = -1`, `b` is the zero book and no record has that id, or `0 ≤ i < len(books)`,
`b = books[i]` and `books[i].Id = id`; the index is non-negative exactly when some record
has the id; the store is left as it was, and the result carries no error component. -/
theorem getBookById_contract (id : Int) (σ : World) :
    (((getBookById id σ).1.2 = -1 ∧ (getBookById id σ).1.1 = book.zero ∧
        ∀ b ∈ σ.books, b.Id ≠ id) ∨
      (0 ≤ (getBookById id σ).1.2 ∧ (getBookById id σ).1.2 < σ.books.length ∧
        σ.books[(getBookById id σ).1.2.toNat]? = some (getBookById id σ).1.1 ∧
        (getBookById id σ).1.1.Id = id)) ∧
    (0 ≤ (getBookById id σ).1.2 ↔ ∃ b ∈ σ.books, b.Id = id) ∧
    (getBookById id σ).2 = σ := by
  have key := getBookByIdFrom_spec σ.books id 0
  simp only [getBookById]
  rcases key with ⟨h1, h2, h3⟩ | ⟨k, hk, h1, h2, h3, _⟩
  · refine ⟨Or.inl ⟨h1, h2, h3⟩, ?_, trivial⟩
    rw [h1]
    constructor
    · intro h; omega
    · rintro ⟨b, hb, hid⟩; exact absurd hid (h3 b hb)
  · have hk2 : (getBookByIdFrom σ.books id 0).2 = (k : Int) := by rw [h1]; simp
    refine ⟨Or.inr ⟨by rw [hk2]; omega, by rw [hk2]; exact_mod_cast hk, ?_, h3⟩, ?_, trivial⟩
    · rw [hk2]; simpa using h2
    · rw [hk2]
      constructor
      · intro _
        exact ⟨_, List.getElem?_mem h2, h3⟩
      · intro _; omega

/-! ## Library facts -/

theorem httpError_Body (w : ResponseWriter) (msg : String) (code : Int) :
    (httpError w msg code).Body = w.Body ++ (msg ++ "\n") := by
  cases hc : w.Code <;>
    simp [httpError, ResponseWriter.Write, ResponseWriter.WriteHeader,
      ResponseWriter.HeaderSet, ResponseWriter.HeaderDel, hc]

theorem httpError_Code (w : ResponseWriter) (msg : String) (code : Int) :
    (httpError w msg code).Code = some (w.Code.getD code) := by
  cases hc : w.Code <;>
    simp [httpError, ResponseWriter.Write, ResponseWriter.WriteHeader,
      ResponseWriter.HeaderSet, ResponseWriter.HeaderDel, hc]

theorem httpError_status (w : ResponseWriter) (msg : String) (code : Int)
    (hw : w.Code = none) : (httpError w msg code).status = code := by
  simp [ResponseWriter.status, httpError_Code, hw]

theorem httpError_fresh (msg : String) (code : Int) :
    (httpError ResponseWriter.fresh msg code).status = code ∧
    (httpError ResponseWriter.fresh msg code).Body = msg ++ "\n" := by
  refine ⟨httpError_status _ _ _ rfl, ?_⟩
  rw [httpError_Body]
  simp [ResponseWriter.fresh]

/-! ## The branches of `ServeHTTP` -/

theorem ServeHTTP_of_err (fn : handler) (w : ResponseWriter) (r : Request) (σ : World)
    (e : handlerError) (h : (fn w r σ).err = some e) :
    ServeHTTP fn w r σ =
      (httpError (fn w r σ).w ("\x7b\"error\":\"" ++ e.Message ++ "\"\x7d") e.Code,
        logPrintf (fn w r σ).world "ERROR: %v\n" [.err e.Error]) := by
  simp [ServeHTTP, h]

theorem ServeHTTP_of_nil (fn : handler) (w : ResponseWriter) (r : Request) (σ : World)
    (h : (fn w r σ).err = none) (hn : (fn w r σ).response = Value.nil) :
    ServeHTTP fn w r σ =
      (httpError (fn w r σ).w "Internal server error. Check the logs." 500,
        logPrintf (fn w r σ).world "ERROR: response from method is nil\n" []) := by
  simp [ServeHTTP, h, hn]

theorem ServeHTTP_of_marshal_error (fn : handler) (w : ResponseWriter) (r : Request)
    (σ : World) (h : (fn w r σ).err = none) (hn : (fn w r σ).response ≠ Value.nil)
    (hm : jsonMarshal (fn w r σ).response = none) :
    ServeHTTP fn w r σ = (httpError (fn w r σ).w "Error marshalling JSON" 500, (fn w r σ).world) := by
  simp [ServeHTTP, h, hn, hm]

theorem ServeHTTP_of_ok (fn : handler) (w : ResponseWriter) (r : Request) (σ : World)
    (bytes : String) (h : (fn w r σ).err = none) (hn : (fn w r σ).response ≠ Value.nil)
    (hm : jsonMarshal (fn w r σ).response = some bytes) :
    ServeHTTP fn w r σ =
      (((fn w r σ).w.HeaderSet "Content-Type" "application/json").Write bytes,
        logPrintf (fn w r σ).world "%s %s %s %d"
          [.str r.RemoteAddr, .str r.Method, .str r.URL, .int 200]) := by
  simp [ServeHTTP, h, hn, hm]

theorem Write_fresh (key value bytes : String) :
    ((ResponseWriter.fresh.HeaderSet key value).Write bytes).status = 200 ∧
    ((ResponseWriter.fresh.HeaderSet key value).Write bytes).Body = bytes := by
  simp [ResponseWriter.fresh, ResponseWriter.HeaderSet, ResponseWriter.Write,
    ResponseWriter.WriteHeader, ResponseWriter.status]

/-! ## The outcomes of `getBook` -/

theorem getBook_of_error (w : ResponseWriter) (r : Request) (σ : World) (e : NumError)
    (h : Atoi (muxVars r "id") = .error e) :
    getBook w r σ = ⟨.nil, some ⟨some e, "Id should be an integer", 400⟩, w, σ⟩ := by
  simp [getBook, h]

theorem getBook_of_absent (w : ResponseWriter) (r : Request) (σ : World) (i : Int)
    (h : Atoi (muxVars r "id") = .ok i) (habs : ∀ b ∈ σ.books, b.Id ≠ i) :
    getBook w r σ =
      ⟨.nil, some ⟨none, "Could not find book " ++ muxVars r "id", 404⟩, w, σ⟩ := by
  have hc := (getBookById_contract i σ).2.1
  have hneg : (getBookById i σ).1.2 < 0 := by
    by_contra hcon
    obtain ⟨b, hb, hid⟩ := hc.mp (by omega)
    exact habs b hb hid
  have hσ := (getBookById_contract i σ).2.2
  simp [getBook, h, hneg, hσ]

theorem getBook_of_present (w : ResponseWriter) (r : Request) (σ : World) (i : Int)
    (h : Atoi (muxVars r "id") = .ok i) (hp : ∃ b ∈ σ.books, b.Id = i) :
    getBook w r σ = ⟨.book (getBookById i σ).1.1, none, w, σ⟩ ∧
      (getBookById i σ).1.1 ∈ σ.books ∧ (getBookById i σ).1.1.Id = i := by
  have hc := getBookById_contract i σ
  have hge : ¬ (getBookById i σ).1.2 < 0 := by
    have := hc.2.1.mpr hp
    omega
  refine ⟨by simp [getBook, h, hge, hc.2.2], ?_⟩
  rcases hc.1 with ⟨h1, _, _⟩ | ⟨_, _, h3, h4⟩
  · omega
  · exact ⟨List.getElem?_mem h3, h4⟩

theorem getBook_frame (w : ResponseWriter) (r : Request) (σ : World) :
    (getBook w r σ).world = σ ∧ (getBook w r σ).w = w := by
  cases h : Atoi (muxVars r "id") with
  | error e => simp [getBook_of_error w r σ e h]
  | ok i =>
    by_cases hp : ∃ b ∈ σ.books, b.Id = i
    · simp [(getBook_of_present w r σ i h hp).1]
    · have habs : ∀ b ∈ σ.books, b.Id ≠ i := fun b hb hid => hp ⟨b, hb, hid⟩
      simp [getBook_of_absent w r σ i h habs]

theorem getBook_books_only (w : ResponseWriter) (r : Request) (σ τ : World)
    (h : τ.books = σ.books) :
    (getBook w r τ).response = (getBook w r σ).response ∧
      (getBook w r τ).err = (getBook w r σ).err := by
  simp [getBook, getBookById, h]
  cases Atoi (muxVars r "id") with
  | error e => simp
  | ok i => simp only []; split <;> simp

/-- The state `ServeHTTP` returns differs from the one the handler left only in the log. -/
theorem ServeHTTP_world (fn : handler) (w : ResponseWriter) (r : Request) (σ : World) :
    (ServeHTTP fn w r σ).2.books = (fn w r σ).world.books ∧
      (ServeHTTP fn w r σ).2.id = (fn w r σ).world.id := by
  unfold ServeHTTP
  simp only []
  split
  · simp [logPrintf]
  · split
    · simp [logPrintf]
    · split <;> simp [logPrintf]

/-- The response `ServeHTTP` writes is determined by the handler's return values and the
writer the handler left. -/
theorem ServeHTTP_response_congr (fn : handler) (w : ResponseWriter) (r : Request)
    (σ τ : World) (he : (fn w r τ).err = (fn w r σ).err)
    (hr : (fn w r τ).response = (fn w r σ).response) (hw : (fn w r τ).w = (fn w r σ).w) :
    (ServeHTTP fn w r τ).1 = (ServeHTTP fn w r σ).1 := by
  unfold ServeHTTP
  simp only [he, hr, hw]
  split
  · rfl
  · split
    · rfl
    · split <;> rfl

/-- Both registered handlers leave the state and the writer alone and read only `books`. -/
theorem registered_frame (fn : handler) (hfn : fn = listBooks ∨ fn = getBook)
    (w : ResponseWriter) (r : Request) (σ : World) :
    (fn w r σ).world = σ ∧ (fn w r σ).w = w ∧
      ∀ τ : World, τ.books = σ.books →
        (fn w r τ).response = (fn w r σ).response ∧ (fn w r τ).err = (fn w r σ).err := by
  rcases hfn with rfl | rfl
  · refine ⟨rfl, rfl, ?_⟩
    intro τ h
    simp [listBooks, h]
  · exact ⟨(getBook_frame w r σ).1, (getBook_frame w r σ).2,
      fun τ h => getBook_books_only w r σ τ h⟩

theorem registered_serve_books (fn : handler) (hfn : fn = listBooks ∨ fn = getBook)
    (w : ResponseWriter) (r : Request) (σ : World) :
    (ServeHTTP fn w r σ).2.books = σ.books ∧ (ServeHTTP fn w r σ).2.id = σ.id := by
  have h := ServeHTTP_world fn w r σ
  rw [(registered_frame fn hfn w r σ).1] at h
  exact h

theorem registered_serve_congr (fn : handler) (hfn : fn = listBooks ∨ fn = getBook)
    (w : ResponseWriter) (r : Request) (σ τ : World) (h : τ.books = σ.books) :
    (ServeHTTP fn w r τ).1 = (ServeHTTP fn w r σ).1 := by
  have hσ := registered_frame fn hfn w r σ
  have hτ := registered_frame fn hfn w r τ
  exact ServeHTTP_response_congr fn w r σ τ (hσ.2.2 τ h).2 (hσ.2.2 τ h).1
    (by rw [hτ.2.1, hσ.2.1])

theorem repeatRequest_registered (fn : handler) (hfn : fn = listBooks ∨ fn = getBook)
    (r : Request) (n : Nat) (σ : World) :
    (repeatRequest fn r n σ).1 = List.replicate n (ServeHTTP fn ResponseWriter.fresh r σ).1 ∧
      (repeatRequest fn r n σ).2.books = σ.books ∧ (repeatRequest fn r n σ).2.id = σ.id := by
  induction n generalizing σ with
  | zero => simp [repeatRequest]
  | succ n ih =>
    have hb := registered_serve_books fn hfn ResponseWriter.fresh r σ
    have ih1 := ih (ServeHTTP fn ResponseWriter.fresh r σ).2
    have hc := registered_serve_congr fn hfn ResponseWriter.fresh r σ
      (ServeHTTP fn ResponseWriter.fresh r σ).2 hb.1
    simp only [repeatRequest, List.replicate_succ]
    refine ⟨?_, ?_, ?_⟩
    · rw [ih1.1, hc]
    · rw [ih1.2.1, hb.1]
    · rw [ih1.2.2, hb.2]

/-- Claim C8. `listBooks`, `getBook` and `getBookById` return the state they were given; the
adapter around a registered handler leaves `books` and `id` as they were; its response is
the same for any two states with the same `books`; and the same request served `n` times
in a row gets `n` identical responses and leaves `books` and `id` unchanged. -/
theorem reads_leave_store_unchanged (w : ResponseWriter) (r : Request) (σ : World)
    (id : Int) (n : Nat) :
    (listBooks w r σ).world = σ ∧ (getBook w r σ).world = σ ∧ (getBookById id σ).2 = σ ∧
    ∀ fn : handler, fn = listBooks ∨ fn = getBook →
      ((ServeHTTP fn w r σ).2.books = σ.books ∧ (ServeHTTP fn w r σ).2.id = σ.id) ∧
      (∀ τ : World, τ.books = σ.books → (ServeHTTP fn w r τ).1 = (ServeHTTP fn w r σ).1) ∧
      (repeatRequest fn r n σ).1 = List.replicate n (ServeHTTP fn ResponseWriter.fresh r σ).1 ∧
      (repeatRequest fn r n σ).2.books = σ.books ∧ (repeatRequest fn r n σ).2.id = σ.id :=
  ⟨rfl, (getBook_frame w r σ).1, rfl, fun fn hfn =>
    ⟨registered_serve_books fn hfn w r σ,
      fun τ h => registered_serve_congr fn hfn w r σ τ h,
      repeatRequest_registered fn hfn r n σ⟩⟩

/-! ## Reading bodies as JSON -/

theorem parseString_quote (rest acc : List Char) :
    parseString ('"' :: rest) acc = some (String.mk acc.reverse, rest) := by
  rw [parseString.eq_def]
  simp

theorem parseString_plain_cons (c : Char) (cs acc : List Char) (h1 : c ≠ '"') (h2 : c ≠ '\\')
    (h3 : 32 ≤ c.toNat) : parseString (c :: cs) acc = parseString cs (c :: acc) := by
  rw [parseString.eq_def]
  have h5 : ¬ c.toNat < 32 := by omega
  simp [h1, h2, h5]

theorem parseString_plain (ms : List Char)
    (hplain : ms.all (fun c => c != '"' && c != '\\' && decide (32 ≤ c.toNat)) = true)
    (acc rest : List Char) :
    parseString (ms ++ '"' :: rest) acc = some (String.mk (acc.reverse ++ ms), rest) := by
  induction ms generalizing acc with
  | nil => simp [parseString_quote]
  | cons c cs ih =>
    simp only [List.all_cons, Bool.and_eq_true, bne_iff_ne, ne_eq, decide_eq_true_eq] at hplain
    obtain ⟨⟨⟨h1, h2⟩, h3⟩, h4⟩ := hplain
    rw [List.cons_append, parseString_plain_cons c _ acc h1 h2 h3, ih h4]
    simp

theorem parseString_error_key (rest : List Char) :
    parseString ('e' :: 'r' :: 'r' :: 'o' :: 'r' :: '"' :: rest) [] = some ("error", rest) := by
  have h := parseString_plain ['e', 'r', 'r', 'o', 'r'] (by decide) [] rest
  simpa using h

theorem parseValue_errorObject (m : String) (hplain : plainText m = true) (fuel : Nat)
    (rest : List Char) :
    parseValue (fuel + 3) .value
        ('{' :: '"' :: 'e' :: 'r' :: 'r' :: 'o' :: 'r' :: '"' :: ':' :: '"' ::
          (m.data ++ '"' :: '}' :: rest)) =
      some (.obj [("error", .str m)], rest) := by
  have hs := parseString_plain m.data hplain [] ('}' :: rest)
  simp only [List.reverse_nil, List.nil_append] at hs
  have hv : parseValue (fuel + 1) .value ('"' :: (m.data ++ '"' :: '}' :: rest)) =
      some (.str m, '}' :: rest) := by
    rw [parseValue]
    simp [skipWs, isWs, hs]
  have hm : parseValue (fuel + 2) (.members [])
      ('"' :: 'e' :: 'r' :: 'r' :: 'o' :: 'r' :: '"' :: ':' :: '"' ::
          (m.data ++ '"' :: '}' :: rest)) = some (.obj [("error", .str m)], rest) := by
    rw [parseValue]
    simp [skipWs, isWs, parseString_error_key, hv]
  rw [parseValue]
  simp [skipWs, isWs, hm]

theorem errorObject_plain (m : String) (hplain : plainText m = true) :
    errorObject? ("\x7b\"error\":\"" ++ m ++ "\"\x7d" ++ "\n") = some (.str m) := by
  have hdata : ("\x7b\"error\":\"" ++ m ++ "\"\x7d" ++ "\n").data =
      '{' :: '"' :: 'e' :: 'r' :: 'r' :: 'o' :: 'r' :: '"' :: ':' :: '"' ::
        (m.data ++ '"' :: '}' :: ['\n']) := by
    simp [String.data_append]
  unfold errorObject? parseJson
  rw [hdata, parseValue_errorObject m hplain _ ['\n']]
  simp [skipWs, isWs]

theorem plainText_append (a b : String) (ha : plainText a = true) (hb : plainText b = true) :
    plainText (a ++ b) = true := by
  unfold plainText at *
  simp only [String.data_append, List.all_append, ha, hb, Bool.and_self]

theorem plainText_of_wellFormed (s : String) (h : wellFormedInteger s = true) :
    plainText s = true := by
  unfold wellFormedInteger at h
  unfold plainText
  have hdigit : ∀ ds : List Char, ds.all Char.isDigit = true →
      ds.all (fun c => c != '"' && c != '\\' && decide (32 ≤ c.toNat)) = true := by
    intro ds hds
    rw [List.all_eq_true] at hds ⊢
    intro c hc
    have hd := hds c hc
    simp only [Char.isDigit, Bool.and_eq_true, decide_eq_true_eq] at hd
    have h48 : 48 ≤ c.toNat := hd.1
    have h57 : c.toNat ≤ 57 := hd.2
    have hq : c ≠ '"' := by rintro rfl; revert h48; decide
    have hb : c ≠ '\\' := by rintro rfl; revert h57; decide
    simp only [Bool.and_eq_true, bne_iff_ne, ne_eq, decide_eq_true_eq]
    exact ⟨⟨hq, hb⟩, by omega⟩
  cases hs : s.data with
  | nil => rfl
  | cons c cs =>
    rw [hs] at h
    simp only [Bool.and_eq_true] at h
    by_cases hsign : c = '+' ∨ c = '-'
    · rw [if_pos hsign] at h
      rw [List.all_cons, hdigit cs h.2]
      rcases hsign with rfl | rfl <;> decide
    · rw [if_neg hsign] at h
      exact hdigit _ h.2

theorem parseString_escape (e x : Char) (tail acc : List Char) (hx : unescape e = some x)
    (he : e ≠ 'u') : parseString ('\\' :: e :: tail) acc = parseString tail (x :: acc) := by
  rw [parseString.eq_def]
  simp [hx, he]

theorem parseString_unicode (h1 h2 h3 h4 : Char) (a b c d : Nat) (tail acc : List Char)
    (ha : hexVal h1 = some a) (hb : hexVal h2 = some b) (hc : hexVal h3 = some c)
    (hd : hexVal h4 = some d) :
    parseString ('\\' :: 'u' :: h1 :: h2 :: h3 :: h4 :: tail) acc =
      parseString tail (Char.ofNat (((a * 16 + b) * 16 + c) * 16 + d) :: acc) := by
  rw [parseString.eq_def]
  simp [ha, hb, hc, hd]

theorem hexVal_digitChar : ∀ k, k < 16 → hexVal (Nat.digitChar k) = some k := by
  decide

theorem parseString_encodeChar (c : Char) (tail acc : List Char) :
    parseString (encodeChar c ++ tail) acc = parseString tail (c :: acc) := by
  have hof : Char.ofNat c.toNat = c := Char.ofNat_toNat c
  unfold encodeChar
  split_ifs with h1 h2 h3 h4 h5 h6 h7 h8 h9
  · rcases h1 with rfl | rfl
    · exact parseString_escape _ _ _ _ (by decide) (by decide)
    · exact parseString_escape _ _ _ _ (by decide) (by decide)
  · rw [h2] at hof
    rw [← hof]
    exact parseString_escape 'b' _ _ _ (by decide) (by decide)
  · rw [h3] at hof
    rw [← hof]
    exact parseString_escape 'f' _ _ _ (by decide) (by decide)
  · subst h4
    exact parseString_escape 'n' _ _ _ (by decide) (by decide)
  · subst h5
    exact parseString_escape 'r' _ _ _ (by decide) (by decide)
  · subst h6
    exact parseString_escape 't' _ _ _ (by decide) (by decide)
  · have hlt : c.toNat < 64 := by
      rcases h7 with h | rfl | rfl | rfl
      · omega
      all_goals decide
    have := parseString_unicode '0' '0' (Nat.digitChar (c.toNat / 16))
      (Nat.digitChar (c.toNat % 16)) 0 0 (c.toNat / 16) (c.toNat % 16) tail acc (by decide)
      (by decide) (hexVal_digitChar _ (by omega)) (hexVal_digitChar _ (by omega))
    have hv : ((0 * 16 + 0) * 16 + c.toNat / 16) * 16 + c.toNat % 16 = c.toNat := by omega
    rw [hv, hof] at this
    exact this
  · rw [h8] at hof
    rw [← hof]
    exact parseString_unicode '2' '0' '2' '8' 2 0 2 8 tail acc (by decide) (by decide)
      (by decide) (by decide)
  · rw [h9] at hof
    rw [← hof]
    exact parseString_unicode '2' '0' '2' '9' 2 0 2 9 tail acc (by decide) (by decide)
      (by decide) (by decide)
  · have hq : c ≠ '"' := fun h => h1 (Or.inr h)
    have hb : c ≠ '\\' := fun h => h1 (Or.inl h)
    have h32 : 32 ≤ c.toNat := by
      by_contra hcon
      exact h7 (Or.inl (by omega))
    exact parseString_plain_cons c tail acc hq hb h32

theorem parseString_encode (cs : List Char) (rest acc : List Char) :
    parseString (cs.flatMap encodeChar ++ '"' :: rest) acc =
      some (String.mk (acc.reverse ++ cs), rest) := by
  induction cs generalizing acc with
  | nil => simp [parseString_quote]
  | cons c cs ih =>
    rw [List.flatMap_cons, List.append_assoc, parseString_encodeChar, ih]
    simp


theorem digitChar_isDigit : ∀ k, k < 10 → (Nat.digitChar k).isDigit = true := by decide

theorem digitChar_ne_zero : ∀ k, k < 10 → k ≠ 0 → Nat.digitChar k ≠ '0' := by decide

/-- The decimal digits `Nat.toDigitsCore` puts in front of `ds`: at least one, all decimal
digits, and no leading zero except for the number zero itself. -/
theorem toDigitsCore_decimal (fuel n : Nat) (ds : List Char) (hfuel : n < fuel) :
    ∃ pre : List Char, Nat.toDigitsCore 10 fuel n ds = pre ++ ds ∧ pre ≠ [] ∧
      pre.all Char.isDigit = true ∧ (n = 0 → pre = ['0']) ∧
      (n ≠ 0 → pre.head? ≠ some '0') := by
  induction fuel generalizing n ds with
  | zero => omega
  | succ fuel ih =>
    unfold Nat.toDigitsCore
    simp only []
    have hd := digitChar_isDigit (n % 10) (Nat.mod_lt _ (by decide))
    by_cases h0 : n / 10 = 0
    · rw [if_pos h0]
      have hlt : n < 10 := by omega
      refine ⟨[Nat.digitChar (n % 10)], rfl, by simp, by simp [hd], ?_, ?_⟩
      · rintro rfl; rfl
      · intro hn
        rw [Nat.mod_eq_of_lt hlt]
        simp only [List.head?_cons, ne_eq, Option.some.injEq]
        exact digitChar_ne_zero n hlt hn
    · rw [if_neg h0]
      obtain ⟨pre, hpre, hne, hall, _, hlead⟩ :=
        ih (n / 10) (Nat.digitChar (n % 10) :: ds) (by omega)
      refine ⟨pre ++ [Nat.digitChar (n % 10)], by rw [hpre]; simp, by simp, ?_, ?_, ?_⟩
      · simp [hall, hd]
      · intro hn; omega
      · intro _
        cases pre with
        | nil => exact absurd rfl hne
        | cons p ps => simpa using hlead h0

theorem natRepr_decimal (n : Nat) :
    (Nat.repr n).data ≠ [] ∧ (Nat.repr n).data.all Char.isDigit = true ∧
      ¬ ((Nat.repr n).data.head? = some '0' ∧ 1 < (Nat.repr n).data.length) := by
  obtain ⟨pre, hpre, hne, hall, hzero, hlead⟩ := toDigitsCore_decimal (n + 1) n [] (by omega)
  have hdata : (Nat.repr n).data = pre := by
    simp [Nat.repr, Nat.toDigits, hpre, List.asString]
  rw [hdata]
  refine ⟨hne, hall, ?_⟩
  rintro ⟨hh, hl⟩
  by_cases hn : n = 0
  · rw [hzero hn] at hl
    simp at hl
  · exact hlead hn hh


theorem takeWhile_digits (ds rest : List Char) (hall : ds.all Char.isDigit = true) :
    (ds ++ '}' :: rest).takeWhile Char.isDigit = ds ∧
      (ds ++ '}' :: rest).dropWhile Char.isDigit = '}' :: rest := by
  induction ds with
  | nil => exact ⟨by simp [show Char.isDigit '}' = false by decide],
      by simp [show Char.isDigit '}' = false by decide]⟩
  | cons d ds ih =>
    simp only [List.all_cons, Bool.and_eq_true] at hall
    obtain ⟨h1, h2⟩ := ih hall.2
    exact ⟨by simp [hall.1, h1], by simp [hall.1, h2]⟩

/-- An unsigned run of decimal digits without a leading zero, followed by a right brace, is read
as a number. -/
theorem parseNumber_unsigned (ds rest : List Char) (hne : ds ≠ [])
    (hall : ds.all Char.isDigit = true)
    (hlead : ¬ (ds.head? = some '0' ∧ 1 < ds.length)) :
    parseNumber (ds ++ '}' :: rest) = some (String.mk ds, '}' :: rest) := by
  obtain ⟨htake, hdrop⟩ := takeWhile_digits ds rest hall
  cases ds with
  | nil => exact absurd rfl hne
  | cons d ds' =>
    have hd : d.isDigit = true := by simp only [List.all_cons, Bool.and_eq_true] at hall; exact hall.1
    have hminus : d ≠ '-' := by rintro rfl; revert hd; decide
    have hr0 : (match d :: ds' ++ '}' :: rest with
        | c :: r => if c = '-' then r else c :: r
        | [] => []) = d :: ds' ++ '}' :: rest := by
      simp [hminus]
    unfold parseNumber
    simp only [hr0, htake, hdrop]
    rw [if_neg (by
      rintro (h | h)
      · exact hne h
      · exact hlead h)]
    simp only [show ('}' : Char) ≠ '.' by decide, show ¬ (('}' : Char) = 'e' ∨ ('}' : Char) = 'E') by decide,
      if_false]
    congr 2
    have : (d :: ds' ++ '}' :: rest).length - ('}' :: rest).length = (d :: ds').length := by
      simp
      omega
    rw [this, List.take_left]

theorem parseNumber_negative (ds rest : List Char) (hne : ds ≠ [])
    (hall : ds.all Char.isDigit = true)
    (hlead : ¬ (ds.head? = some '0' ∧ 1 < ds.length)) :
    parseNumber ('-' :: (ds ++ '}' :: rest)) = some (String.mk ('-' :: ds), '}' :: rest) := by
  obtain ⟨htake, hdrop⟩ := takeWhile_digits ds rest hall
  unfold parseNumber
  simp only [if_true, htake, hdrop]
  rw [if_neg (by
    rintro (h | h)
    · exact hne h
    · exact hlead h)]
  simp only [show ('}' : Char) ≠ '.' by decide, show ¬ (('}' : Char) = 'e' ∨ ('}' : Char) = 'E') by decide,
    if_false]
  have : ('-' :: (ds ++ '}' :: rest)).length - ('}' :: rest).length = ('-' :: ds).length := by
    simp
    omega
  rw [this]
  have htl := List.take_left ('-' :: ds) ('}' :: rest)
  rw [List.cons_append] at htl
  rw [htl]

/-- The decimal text of an `int` followed by a right brace is read back as that number text. -/
theorem parseNumber_toString (i : Int) (rest : List Char) :
    parseNumber ((toString i).data ++ '}' :: rest) = some (toString i, '}' :: rest) ∧
      ∃ c cs, (toString i).data = c :: cs ∧ (c.isDigit = true ∨ c = '-') := by
  cases i with
  | ofNat m =>
    obtain ⟨hne, hall, hlead⟩ := natRepr_decimal m
    have hs : toString (Int.ofNat m) = Nat.repr m := rfl
    rw [hs]
    refine ⟨parseNumber_unsigned _ rest hne hall hlead, ?_⟩
    cases hd : (Nat.repr m).data with
    | nil => exact absurd hd hne
    | cons c cs =>
      rw [hd] at hall
      simp only [List.all_cons, Bool.and_eq_true] at hall
      exact ⟨c, cs, rfl, Or.inl hall.1⟩
  | negSucc m =>
    obtain ⟨hne, hall, hlead⟩ := natRepr_decimal (m + 1)
    have hs : (toString (Int.negSucc m)).data = '-' :: (Nat.repr (m + 1)).data := rfl
    have hs2 : toString (Int.negSucc m) = String.mk ('-' :: (Nat.repr (m + 1)).data) := rfl
    rw [hs, hs2]
    exact ⟨parseNumber_negative _ rest hne hall hlead, _, _, rfl, Or.inr rfl⟩


theorem parseValue_string (fuel : Nat) (s : String) (rest : List Char) :
    parseValue (fuel + 1) .value ('"' :: (s.data.flatMap encodeChar ++ '"' :: rest)) =
      some (.str s, rest) := by
  rw [parseValue]
  simp [skipWs, isWs, parseString_encode]

theorem parseValue_number (fuel : Nat) (i : Int) (rest : List Char) :
    parseValue (fuel + 1) .value ((toString i).data ++ '}' :: rest) =
      some (.num (toString i), '}' :: rest) := by
  obtain ⟨hnum, c, cs, hcs, hc⟩ := parseNumber_toString i rest
  rw [hcs] at hnum ⊢
  have hws : isWs c = false := by
    rcases hc with h | rfl
    · cases hw : isWs c with
      | false => rfl
      | true =>
        simp only [isWs, Bool.or_eq_true, decide_eq_true_eq] at hw
        rcases hw with ((rfl | rfl) | rfl) | rfl <;> revert h <;> decide
    · decide
  have hne : c ≠ '{' ∧ c ≠ '[' ∧ c ≠ '"' ∧ c ≠ 't' ∧ c ≠ 'f' ∧ c ≠ 'n' := by
    rcases hc with h | rfl
    · refine ⟨?_, ?_, ?_, ?_, ?_, ?_⟩ <;> rintro rfl <;> revert h <;> decide
    · decide
  rw [parseValue]
  simp only [List.cons_append, skipWs, hws, Bool.false_eq_true, if_false, hne.1, hne.2.1,
    hne.2.2.1, hne.2.2.2.1, hne.2.2.2.2.1, hne.2.2.2.2.2]
  rw [List.cons_append] at hnum
  have happ : cs.append ('}' :: rest) = cs ++ '}' :: rest := rfl
  rw [happ, hnum]

theorem marshalBook_data (b : book) :
    (marshalBook b).data =
      '{' :: '"' :: 't' :: 'i' :: 't' :: 'l' :: 'e' :: '"' :: ':' :: '"' ::
        (b.Title.data.flatMap encodeChar ++ '"' :: ',' :: '"' :: 'a' :: 'u' :: 't' :: 'h' ::
          'o' :: 'r' :: '"' :: ':' :: '"' ::
          (b.Author.data.flatMap encodeChar ++ '"' :: ',' :: '"' :: 'i' :: 'd' :: '"' :: ':' ::
            ((toString b.Id).data ++ ['}']))) := by
  simp [marshalBook, encodeString, String.data_append]

theorem parseString_key (key : String) (rest : List Char) (hplain : plainText key = true) :
    parseString (key.data ++ '"' :: rest) [] = some (key, rest) := by
  have h := parseString_plain key.data hplain [] rest
  simpa using h

/-- Reading back what `json.Marshal` writes for a `book` gives the object with the record's
title, author and id. -/
theorem parseValue_marshalBook (fuel : Nat) (b : book) (rest : List Char) :
    parseValue (fuel + 5) .value ((marshalBook b).data ++ rest) = some (b.toJson, rest) := by
  have hid := parseValue_number fuel b.Id rest
  have hkid : ∀ tl, parseString ('i' :: 'd' :: '"' :: tl) [] = some ("id", tl) :=
    fun tl => parseString_key "id" tl (by decide)
  have hkau : ∀ tl, parseString ('a' :: 'u' :: 't' :: 'h' :: 'o' :: 'r' :: '"' :: tl) [] =
      some ("author", tl) := fun tl => parseString_key "author" tl (by decide)
  have hkti : ∀ tl, parseString ('t' :: 'i' :: 't' :: 'l' :: 'e' :: '"' :: tl) [] =
      some ("title", tl) := fun tl => parseString_key "title" tl (by decide)
  have h3 : ∀ acc, parseValue (fuel + 2) (.members acc)
      ('"' :: 'i' :: 'd' :: '"' :: ':' :: ((toString b.Id).data ++ '}' :: rest)) =
      some (.obj ((("id", .num (toString b.Id)) :: acc).reverse), rest) := by
    intro acc
    rw [parseValue]
    simp [skipWs, isWs, hkid, hid]
  have h2 : ∀ acc, parseValue (fuel + 3) (.members acc)
      ('"' :: 'a' :: 'u' :: 't' :: 'h' :: 'o' :: 'r' :: '"' :: ':' :: '"' ::
        (b.Author.data.flatMap encodeChar ++ '"' :: ',' :: '"' :: 'i' :: 'd' :: '"' :: ':' ::
          ((toString b.Id).data ++ '}' :: rest))) =
      some (.obj ((("id", .num (toString b.Id)) :: ("author", .str b.Author) :: acc).reverse),
        rest) := by
    intro acc
    rw [parseValue]
    simp [skipWs, isWs, hkau, parseValue_string, h3]
  have h1 : parseValue (fuel + 4) (.members [])
      ('"' :: 't' :: 'i' :: 't' :: 'l' :: 'e' :: '"' :: ':' :: '"' ::
        (b.Title.data.flatMap encodeChar ++ '"' :: ',' :: '"' :: 'a' :: 'u' :: 't' :: 'h' ::
          'o' :: 'r' :: '"' :: ':' :: '"' ::
          (b.Author.data.flatMap encodeChar ++ '"' :: ',' :: '"' :: 'i' :: 'd' :: '"' :: ':' ::
            ((toString b.Id).data ++ '}' :: rest)))) = some (b.toJson, rest) := by
    rw [parseValue]
    simp [skipWs, isWs, hkti, parseValue_string, h2, book.toJson]
  rw [marshalBook_data, parseValue]
  simp [skipWs, isWs, h1]

theorem parseJson_marshalBook (b : book) : parseJson (marshalBook b) = some b.toJson := by
  unfold parseJson
  have h := parseValue_marshalBook (2 * (marshalBook b).length - 2) b []
  have hlen : 2 ≤ 2 * (marshalBook b).length := by
    have : (marshalBook b).length = (marshalBook b).data.length := rfl
    rw [this, marshalBook_data]
    simp
  have hf : 2 * (marshalBook b).length - 2 + 5 = 2 * (marshalBook b).length + 3 := by omega
  rw [hf, List.append_nil] at h
  rw [h]
  simp [skipWs]


theorem intercalate_go_data (acc sep : String) (l : List String) :
    (String.intercalate.go acc sep l).data =
      acc.data ++ l.flatMap (fun a => sep.data ++ a.data) := by
  induction l generalizing acc with
  | nil => simp [String.intercalate.go]
  | cons a as ih =>
    rw [String.intercalate.go, ih]
    simp [String.data_append]

theorem flatMap_marshal_length (bs : List book) :
    bs.length ≤ (bs.flatMap (fun x => ',' :: (marshalBook x).data)).length := by
  induction bs with
  | nil => simp
  | cons x xs ih =>
    simp only [List.flatMap_cons, List.length_append, List.length_cons]
    omega

theorem marshalBooks_data (b : book) (bs : List book) :
    (marshalBooks (b :: bs)).data =
      '[' :: ((marshalBook b).data ++
        (bs.flatMap (fun x => ',' :: (marshalBook x).data) ++ [']'])) := by
  have hflat : (bs.map marshalBook).flatMap (fun a => ',' :: a.data) =
      bs.flatMap (fun x => ',' :: (marshalBook x).data) := by
    induction bs with
    | nil => rfl
    | cons x xs ih => simp [List.flatMap_cons, ih]
  simp [marshalBooks, String.intercalate, intercalate_go_data, String.data_append, hflat]

theorem parseValue_items (bs : List book) (b : book) (acc : List Json) (fuel : Nat)
    (rest : List Char) :
    parseValue (fuel + bs.length + 6) (.items acc)
        ((marshalBook b).data ++ (bs.flatMap (fun x => ',' :: (marshalBook x).data) ++
          ']' :: rest)) =
      some (.arr (acc.reverse ++ (b :: bs).map book.toJson), rest) := by
  induction bs generalizing b acc with
  | nil =>
    rw [parseValue]
    simp only [List.length_nil, Nat.add_zero, List.flatMap_nil, List.nil_append]
    rw [parseValue_marshalBook fuel b (']' :: rest)]
    simp [skipWs, isWs]
  | cons b2 bs ih =>
    rw [parseValue]
    have hf : fuel + (b2 :: bs).length + 5 = (fuel + bs.length + 1) + 5 := by
      simp only [List.length_cons]; omega
    have hf2 : fuel + bs.length + 1 + 5 = fuel + bs.length + 6 := by omega
    simp only [hf, List.flatMap_cons, List.cons_append, List.append_assoc]
    rw [parseValue_marshalBook (fuel + bs.length + 1) b]
    simp only [skipWs, isWs, show (',' : Char) ≠ ' ' by decide, show (',' : Char) ≠ '\t' by decide,
      show (',' : Char) ≠ '\n' by decide, show (',' : Char) ≠ '\r' by decide, decide_False,
      Bool.or_self, Bool.false_eq_true, if_false, hf2]
    rw [ih b2 (b.toJson :: acc)]
    simp

/-- Reading back what `json.Marshal` writes for the `books` slice gives the array of the
records' objects, in slice order. -/
theorem parseJson_marshalBooks (bs : List book) :
    parseJson (marshalBooks bs) = some (.arr (bs.map book.toJson)) := by
  cases bs with
  | nil => rfl
  | cons b bs =>
    have hge : bs.length + 2 ≤ (marshalBooks (b :: bs)).length := by
      have hlen : (marshalBooks (b :: bs)).length = (marshalBooks (b :: bs)).data.length := rfl
      have hfl := flatMap_marshal_length bs
      rw [hlen, marshalBooks_data]
      simp only [List.length_cons, List.length_append, List.length_nil]
      omega
    have hf : 2 * (marshalBooks (b :: bs)).length + 3 =
        ((2 * (marshalBooks (b :: bs)).length - bs.length - 4) + bs.length + 6) + 1 := by omega
    have hopen : ∃ tl, (marshalBook b).data ++
        (bs.flatMap (fun x => ',' :: (marshalBook x).data) ++ [']']) = '{' :: tl := by
      rw [marshalBook_data]; exact ⟨_, rfl⟩
    obtain ⟨tl, htl⟩ := hopen
    have hit := parseValue_items bs b [] (2 * (marshalBooks (b :: bs)).length - bs.length - 4) []
    rw [htl] at hit
    unfold parseJson
    rw [hf, marshalBooks_data, parseValue, htl]
    simp [skipWs, isWs, hit]

/-! ## `GET /books` -/

set_option maxRecDepth 100000 in
/-- The JSON array `json.Marshal` writes for the four bootstrap records. -/
theorem marshalBooks_bootstrap :
    marshalBooks (bootstrap World.init).books =
      "[\x7b\"title\":\"Ender's Game\",\"author\":\"Orson Scott Card\",\"id\":1\x7d," ++
      "\x7b\"title\":\"Code Complete\",\"author\":\"Steve McConnell\",\"id\":2\x7d," ++
      "\x7b\"title\":\"World War Z\",\"author\":\"Max Brooks\",\"id\":3\x7d," ++
      "\x7b\"title\":\"Pragmatic Programmer\",\"author\":\"David Thomas\",\"id\":4\x7d]" := by
  rfl

/-- Claim C4. In every state `listBooks` returns the whole `books` slice and no error; the
adapter answers 200 with what `json.Marshal` writes for the slice, which read as JSON is
the array of the records' `{title, author, id}` objects in slice order; after the
bootstrap of `main` from the initial state the slice holds the four fixed records with ids
1 to 4 in insertion order, and the body is their JSON array. -/
theorem listBooks_returns_all (w : ResponseWriter) (r : Request) (σ : World) :
    (listBooks w r σ).err = none ∧ (listBooks w r σ).response = Value.books σ.books ∧
    (ServeHTTP listBooks ResponseWriter.fresh r σ).1.status = 200 ∧
    (ServeHTTP listBooks ResponseWriter.fresh r σ).1.Body = marshalBooks σ.books ∧
    parseJson (ServeHTTP listBooks ResponseWriter.fresh r σ).1.Body =
      some (.arr (σ.books.map book.toJson)) ∧
    (ServeHTTP listBooks ResponseWriter.fresh r World.init).1.Body = "[]" ∧
    (bootstrap World.init).books =
      [⟨"Ender's Game", "Orson Scott Card", 1⟩, ⟨"Code Complete", "Steve McConnell", 2⟩,
        ⟨"World War Z", "Max Brooks", 3⟩, ⟨"Pragmatic Programmer", "David Thomas", 4⟩] ∧
    (ServeHTTP listBooks ResponseWriter.fresh r (bootstrap World.init)).1.Body =
      "[\x7b\"title\":\"Ender's Game\",\"author\":\"Orson Scott Card\",\"id\":1\x7d," ++
      "\x7b\"title\":\"Code Complete\",\"author\":\"Steve McConnell\",\"id\":2\x7d," ++
      "\x7b\"title\":\"World War Z\",\"author\":\"Max Brooks\",\"id\":3\x7d," ++
      "\x7b\"title\":\"Pragmatic Programmer\",\"author\":\"David Thomas\",\"id\":4\x7d]" := by
  have hserve : ∀ τ : World, ServeHTTP listBooks ResponseWriter.fresh r τ =
      ((ResponseWriter.fresh.HeaderSet "Content-Type" "application/json").Write
          (marshalBooks τ.books),
        logPrintf τ "%s %s %s %d" [.str r.RemoteAddr, .str r.Method, .str r.URL, .int 200]) :=
    fun τ => ServeHTTP_of_ok listBooks ResponseWriter.fresh r τ (marshalBooks τ.books) rfl
      (by simp [listBooks]) rfl
  refine ⟨rfl, rfl, ?_, ?_, ?_, ?_, by decide, ?_⟩
  · rw [hserve]; exact (Write_fresh _ _ _).1
  · rw [hserve]; exact (Write_fresh _ _ _).2
  · rw [hserve, (Write_fresh _ _ _).2]; exact parseJson_marshalBooks σ.books
  · rw [hserve]; rw [(Write_fresh _ _ _).2]; rfl
  · rw [hserve]; rw [(Write_fresh _ _ _).2]; exact marshalBooks_bootstrap

/-! ## `GET /books/{id}` -/

/-- Claim C1. When the ids in the store are pairwise distinct and the path segment is
parsed by `strconv.Atoi` to the id `i` of some record, `getBook` returns that record, the
only one with id `i`, and no error, and the adapter answers 200 with what `json.Marshal`
writes for that record as body, which read as JSON is the object `{title, author, id}` of
that record. -/
theorem getBook_returns_record (r : Request) (σ : World) (i : Int)
    (hdistinct : (σ.books.map book.Id).Nodup)
    (hparse : Atoi (muxVars r "id") = .ok i)
    (hpresent : ∃ b ∈ σ.books, b.Id = i) :
    ∃ b : book, b ∈ σ.books ∧ b.Id = i ∧ (∀ c ∈ σ.books, c.Id = i → c = b) ∧
      (∀ w, (getBook w r σ).response = Value.book b ∧ (getBook w r σ).err = none) ∧
      (ServeHTTP getBook ResponseWriter.fresh r σ).1.status = 200 ∧
      (ServeHTTP getBook ResponseWriter.fresh r σ).1.Body = marshalBook b ∧
      parseJson (ServeHTTP getBook ResponseWriter.fresh r σ).1.Body = some b.toJson := by
  have hg := fun w => getBook_of_present w r σ i hparse hpresent
  have hmem := (hg ResponseWriter.fresh).2.1
  have hid := (hg ResponseWriter.fresh).2.2
  have hserve := ServeHTTP_of_ok getBook ResponseWriter.fresh r σ
    (marshalBook (getBookById i σ).1.1) (by rw [(hg _).1]) (by rw [(hg _).1]; simp)
    (by rw [(hg _).1]; rfl)
  refine ⟨(getBookById i σ).1.1, hmem, hid, ?_, ?_, ?_, ?_, ?_⟩
  · intro c hc hci
    exact List.inj_on_of_nodup_map hdistinct hc hmem (by rw [hci, hid])
  · intro w
    rw [(hg w).1]
    exact ⟨rfl, rfl⟩
  · rw [hserve, (getBook_frame _ r σ).2]; exact (Write_fresh _ _ _).1
  · rw [hserve, (getBook_frame _ r σ).2]; exact (Write_fresh _ _ _).2
  · rw [hserve, (getBook_frame _ r σ).2, (Write_fresh _ _ _).2]
    exact parseJson_marshalBook _

/-- Claim C1 at `GET /books/2` after the bootstrap: the record returned is Code Complete and
the body is its JSON object. -/
theorem getBook_returns_record_witness :
    (ServeHTTP getBook ResponseWriter.fresh (Request.books "2")
      (bootstrap World.init)).1.Body =
      "\x7b\"title\":\"Code Complete\",\"author\":\"Steve McConnell\",\"id\":2\x7d" ∧
    ∃ b : book, b ∈ (bootstrap World.init).books ∧ b.Id = 2 ∧
      (∀ c ∈ (bootstrap World.init).books, c.Id = 2 → c = b) ∧
      (∀ w, (getBook w (Request.books "2") (bootstrap World.init)).response = Value.book b ∧
        (getBook w (Request.books "2") (bootstrap World.init)).err = none) ∧
      (ServeHTTP getBook ResponseWriter.fresh (Request.books "2")
        (bootstrap World.init)).1.status = 200 ∧
      (ServeHTTP getBook ResponseWriter.fresh (Request.books "2")
        (bootstrap World.init)).1.Body = marshalBook b ∧
      parseJson (ServeHTTP getBook ResponseWriter.fresh (Request.books "2")
        (bootstrap World.init)).1.Body = some b.toJson :=
  ⟨by rfl,
    getBook_returns_record (Request.books "2") (bootstrap World.init) 2 (by decide) (by rfl)
      ⟨⟨"Code Complete", "Steve McConnell", 2⟩, by decide, rfl⟩⟩

/-! ## What `ServeHTTP` logs -/

theorem logPrintf_drop (τ : World) (format : String) (args : List LogArg) :
    (logPrintf τ format args).log.drop τ.log.length = [⟨format, args⟩] := by
  simp [logPrintf]

theorem emitted_of_err (fn : handler) (w : ResponseWriter) (r : Request) (σ : World)
    (e : handlerError) (h : (fn w r σ).err = some e) :
    emitted fn w r σ = [⟨"ERROR: %v\n", [.err e.Error]⟩] := by
  rw [emitted, ServeHTTP_of_err fn w r σ e h]
  exact logPrintf_drop _ _ _

theorem emitted_of_nil (fn : handler) (w : ResponseWriter) (r : Request) (σ : World)
    (h : (fn w r σ).err = none) (hn : (fn w r σ).response = Value.nil) :
    emitted fn w r σ = [nilResponseLine] := by
  rw [emitted, ServeHTTP_of_nil fn w r σ h hn]
  exact logPrintf_drop _ _ _

theorem emitted_of_marshal_error (fn : handler) (w : ResponseWriter) (r : Request)
    (σ : World) (h : (fn w r σ).err = none) (hn : (fn w r σ).response ≠ Value.nil)
    (hm : jsonMarshal (fn w r σ).response = none) :
    emitted fn w r σ = [] := by
  rw [emitted, ServeHTTP_of_marshal_error fn w r σ h hn hm]
  simp

theorem emitted_of_ok (fn : handler) (w : ResponseWriter) (r : Request) (σ : World)
    (bytes : String) (h : (fn w r σ).err = none) (hn : (fn w r σ).response ≠ Value.nil)
    (hm : jsonMarshal (fn w r σ).response = some bytes) :
    emitted fn w r σ = [accessLine r 200] := by
  rw [emitted, ServeHTTP_of_ok fn w r σ bytes h hn hm]
  exact logPrintf_drop _ _ _

theorem accessLine_ne_error (r : Request) (c : Int) (e : Option NumError) :
    accessLine r c ≠ ⟨"ERROR: %v\n", [.err e]⟩ := by
  intro h
  have hf := congrArg LogEntry.format h
  revert hf
  simp only [accessLine]
  decide

theorem accessLine_ne_nilResponse (r : Request) (c : Int) : accessLine r c ≠ nilResponseLine := by
  intro h
  have hf := congrArg LogEntry.format h
  revert hf
  simp only [accessLine, nilResponseLine]
  decide

theorem nilResponseLine_ne_error (args : List LogArg) :
    nilResponseLine ≠ ⟨"ERROR: %v\n", args⟩ := by
  intro hc
  have hf : ("ERROR: response from method is nil\n" : String) = "ERROR: %v\n" :=
    congrArg LogEntry.format hc
  exact absurd hf (by decide)

/-- The access-log line is among the entries `ServeHTTP` adds exactly on the success path. -/
theorem accessLine_emitted_iff (fn : handler) (w : ResponseWriter) (r : Request) (σ : World)
    (c : Int) :
    accessLine r c ∈ emitted fn w r σ ↔
      c = 200 ∧ (fn w r σ).err = none ∧ (fn w r σ).response ≠ Value.nil ∧
        jsonMarshal (fn w r σ).response ≠ none := by
  cases he : (fn w r σ).err with
  | some e =>
    rw [emitted_of_err fn w r σ e he]
    simp [accessLine_ne_error]
  | none =>
    by_cases hn : (fn w r σ).response = Value.nil
    · rw [emitted_of_nil fn w r σ he hn]
      simp [accessLine_ne_nilResponse, hn]
    · cases hm : jsonMarshal (fn w r σ).response with
      | none =>
        rw [emitted_of_marshal_error fn w r σ he hn hm]
        simp
      | some bytes =>
        rw [emitted_of_ok fn w r σ bytes he hn hm]
        simp [accessLine, hn]

/-- Claim C9, refuted. No handler outcome that is a failure (a `handlerError`, a nil success
value, or a value `json.Marshal` rejects) makes `ServeHTTP` write a status other than 200
and also emit the access-log line: all three branches return before line 64. -/
theorem no_access_line_on_failure :
    ¬ ∃ (fn : handler) (w : ResponseWriter) (r : Request) (σ : World),
      ((fn w r σ).err ≠ none ∨ (fn w r σ).response = Value.nil ∨
          jsonMarshal (fn w r σ).response = none) ∧
        (ServeHTTP fn w r σ).1.status ≠ 200 ∧ accessLine r 200 ∈ emitted fn w r σ := by
  rintro ⟨fn, w, r, σ, hfail, _, hmem⟩
  obtain ⟨_, he, hn, hm⟩ := (accessLine_emitted_iff fn w r σ 200).mp hmem
  rcases hfail with h | h | h
  · exact h he
  · exact hn h
  · exact hm h

/-- Claim C9, amended. `ServeHTTP` emits the access-log line exactly when the handler returned
no error and a non-nil value that `json.Marshal` accepts, and then with the literal 200; on
a `handlerError` it emits only the ERROR line, on a nil value only the nil-response line,
on a serialization failure nothing; and where the access-log line is emitted and the
handler itself wrote no header, the status written is 200 as logged. -/
theorem access_line_only_on_success (fn : handler) (w : ResponseWriter) (r : Request)
    (σ : World) :
    (∀ c, accessLine r c ∈ emitted fn w r σ ↔
      c = 200 ∧ (fn w r σ).err = none ∧ (fn w r σ).response ≠ Value.nil ∧
        jsonMarshal (fn w r σ).response ≠ none) ∧
    (∀ e, (fn w r σ).err = some e → emitted fn w r σ = [⟨"ERROR: %v\n", [.err e.Error]⟩]) ∧
    ((fn w r σ).err = none → (fn w r σ).response = Value.nil →
      emitted fn w r σ = [nilResponseLine]) ∧
    ((fn w r σ).err = none → (fn w r σ).response ≠ Value.nil →
      jsonMarshal (fn w r σ).response = none → emitted fn w r σ = []) ∧
    (accessLine r 200 ∈ emitted fn w r σ → (fn w r σ).w.Code = none →
      (ServeHTTP fn w r σ).1.status = 200) := by
  refine ⟨fun c => accessLine_emitted_iff fn w r σ c, emitted_of_err fn w r σ,
    emitted_of_nil fn w r σ, emitted_of_marshal_error fn w r σ, ?_⟩
  intro hmem hw
  obtain ⟨_, he, hn, hm⟩ := (accessLine_emitted_iff fn w r σ 200).mp hmem
  obtain ⟨bytes, hb⟩ := Option.ne_none_iff_exists'.mp hm
  rw [ServeHTTP_of_ok fn w r σ bytes he hn hb]
  simp [ResponseWriter.status, ResponseWriter.Write, ResponseWriter.WriteHeader,
    ResponseWriter.HeaderSet, hw]

/-- Claim C9 (amended) at `GET /books` after the bootstrap and at a handler that returns a nil
value: the first logs the access line and answers 200, the second logs only the
nil-response line and answers 500. -/
theorem access_line_only_on_success_witness :
    (accessLine (Request.books "") 200 ∈
        emitted listBooks ResponseWriter.fresh (Request.books "") (bootstrap World.init) ∧
      (ServeHTTP listBooks ResponseWriter.fresh (Request.books "")
        (bootstrap World.init)).1.status = 200) ∧
    (emitted (constHandler .nil none) ResponseWriter.fresh (Request.books "") World.init =
        [nilResponseLine] ∧
      (ServeHTTP (constHandler .nil none) ResponseWriter.fresh (Request.books "")
        World.init).1.status = 500) :=
  ⟨⟨((access_line_only_on_success listBooks ResponseWriter.fresh (Request.books "")
        (bootstrap World.init)).1 200).mpr ⟨rfl, rfl, by simp [listBooks], by simp [listBooks, jsonMarshal]⟩,
      (access_line_only_on_success listBooks ResponseWriter.fresh (Request.books "")
        (bootstrap World.init)).2.2.2.2
        (((access_line_only_on_success listBooks ResponseWriter.fresh (Request.books "")
          (bootstrap World.init)).1 200).mpr
          ⟨rfl, rfl, by simp [listBooks], by simp [listBooks, jsonMarshal]⟩) rfl⟩,
    ⟨(access_line_only_on_success (constHandler .nil none) ResponseWriter.fresh
        (Request.books "") World.init).2.2.1 rfl rfl, by rfl⟩⟩

/-! ## The registered handlers never reach the 500 branches -/

/-- The outcome of `getBook` is one of three cases, told apart by `strconv.Atoi` and the
store. -/
theorem getBook_outcome (w : ResponseWriter) (r : Request) (σ : World) :
    ((getBook w r σ).response ≠ Value.nil ↔ (getBook w r σ).err = none) ∧
    ((∃ e, Atoi (muxVars r "id") = .error e ∧
        getBook w r σ = ⟨.nil, some ⟨some e, "Id should be an integer", 400⟩, w, σ⟩) ∨
      (∃ i, Atoi (muxVars r "id") = .ok i ∧ (∀ b ∈ σ.books, b.Id ≠ i) ∧
        getBook w r σ =
          ⟨.nil, some ⟨none, "Could not find book " ++ muxVars r "id", 404⟩, w, σ⟩) ∨
      (∃ i b, Atoi (muxVars r "id") = .ok i ∧ b ∈ σ.books ∧ b.Id = i ∧
        getBook w r σ = ⟨.book b, none, w, σ⟩)) ∧
    (((getBook w r σ).err.map handlerError.Code = some 400 ↔
        ∃ e, Atoi (muxVars r "id") = .error e) ∧
      ((getBook w r σ).err.map handlerError.Code = some 404 ↔
        ∃ i, Atoi (muxVars r "id") = .ok i ∧ ∀ b ∈ σ.books, b.Id ≠ i) ∧
      ((getBook w r σ).err = none ↔
        ∃ i, Atoi (muxVars r "id") = .ok i ∧ ∃ b ∈ σ.books, b.Id = i)) := by
  cases h : Atoi (muxVars r "id") with
  | error e =>
    have hg := getBook_of_error w r σ e h
    exact ⟨by simp [hg], Or.inl ⟨e, rfl, hg⟩, by simp [hg], by simp [hg], by simp [hg]⟩
  | ok i =>
    by_cases hp : ∃ b ∈ σ.books, b.Id = i
    · have hg := (getBook_of_present w r σ i h hp).1
      have hb := (getBook_of_present w r σ i h hp).2
      exact ⟨by simp [hg], Or.inr (Or.inr ⟨i, _, rfl, hb.1, hb.2, hg⟩),
        by simp [hg], by simp [hg]; exact hp, by simp [hg]; exact hp⟩
    · have habs : ∀ b ∈ σ.books, b.Id ≠ i := fun b hb hid => hp ⟨b, hb, hid⟩
      have hg := getBook_of_absent w r σ i h habs
      exact ⟨by simp [hg], Or.inr (Or.inl ⟨i, rfl, habs, hg⟩),
        by simp [hg], by simp [hg]; exact habs, by simp [hg]; exact habs⟩

/-- Served through the adapter, `listBooks` takes the success branch. -/
theorem listBooks_served (w : ResponseWriter) (r : Request) (σ : World) :
    ServeHTTP listBooks w r σ =
        ((w.HeaderSet "Content-Type" "application/json").Write (marshalBooks σ.books),
          logPrintf σ "%s %s %s %d"
            [.str r.RemoteAddr, .str r.Method, .str r.URL, .int 200]) ∧
      emitted listBooks w r σ = [accessLine r 200] :=
  ⟨ServeHTTP_of_ok listBooks w r σ (marshalBooks σ.books) rfl (by simp [listBooks]) rfl,
    emitted_of_ok listBooks w r σ (marshalBooks σ.books) rfl (by simp [listBooks]) rfl⟩

/-- Served through the adapter, `getBook` takes the success branch or the `handlerError`
branch with code 400 or 404. -/
theorem getBook_served (w : ResponseWriter) (r : Request) (σ : World) :
    ¬ ((getBook w r σ).err = none ∧ (getBook w r σ).response = Value.nil) ∧
    ((getBook w r σ).err = none → jsonMarshal (getBook w r σ).response ≠ none) ∧
    nilResponseLine ∉ emitted getBook w r σ ∧
    ((ServeHTTP getBook ResponseWriter.fresh r σ).1.status = 200 ∨
      (ServeHTTP getBook ResponseWriter.fresh r σ).1.status = 400 ∨
      (ServeHTTP getBook ResponseWriter.fresh r σ).1.status = 404) := by
  cases h : Atoi (muxVars r "id") with
  | error e =>
    have hg := fun v => getBook_of_error v r σ e h
    refine ⟨by simp [hg], by simp [hg], ?_, Or.inr (Or.inl ?_)⟩
    · rw [emitted_of_err getBook w r σ _ (by rw [hg])]
      simp [nilResponseLine_ne_error]
    · rw [ServeHTTP_of_err getBook _ r σ _ (by rw [hg]), hg]
      exact (httpError_fresh _ _).1
  | ok i =>
    by_cases hp : ∃ b ∈ σ.books, b.Id = i
    · have hg := fun v => (getBook_of_present v r σ i h hp).1
      refine ⟨by simp [hg], by simp [hg, jsonMarshal], ?_, Or.inl ?_⟩
      · rw [emitted_of_ok getBook w r σ (marshalBook (getBookById i σ).1.1) (by rw [hg])
          (by rw [hg]; simp) (by rw [hg]; rfl)]
        simp [(accessLine_ne_nilResponse r 200).symm]
      · rw [ServeHTTP_of_ok getBook _ r σ (marshalBook (getBookById i σ).1.1) (by rw [hg])
          (by rw [hg]; simp) (by rw [hg]; rfl), hg]
        exact (Write_fresh _ _ _).1
    · have habs : ∀ b ∈ σ.books, b.Id ≠ i := fun b hb hid => hp ⟨b, hb, hid⟩
      have hg := fun v => getBook_of_absent v r σ i h habs
      refine ⟨by simp [hg], by simp [hg], ?_, Or.inr (Or.inr ?_)⟩
      · rw [emitted_of_err getBook w r σ _ (by rw [hg])]
        simp [nilResponseLine_ne_error]
      · rw [ServeHTTP_of_err getBook _ r σ _ (by rw [hg]), hg]
        exact (httpError_fresh _ _).1

/-- Claim C10. `listBooks` returns a non-nil value and no error; `getBook` returns a non-nil
value exactly when it returns no error, and its outcome is one of three cases told apart by
`strconv.Atoi` and the store: 400 when the segment does not parse, 404 when it parses and no
record has the id, the record when one has; so for both handlers the guard of the nil
branch of `ServeHTTP` is false, `json.Marshal` succeeds, the nil-response line is never
logged, and the status on a fresh writer is 200, 400 or 404. -/
theorem registered_handlers_no_internal_fault (w : ResponseWriter) (r : Request) (σ : World) :
    ((listBooks w r σ).response ≠ Value.nil ∧ (listBooks w r σ).err = none) ∧
    ((getBook w r σ).response ≠ Value.nil ↔ (getBook w r σ).err = none) ∧
    ((∃ e, Atoi (muxVars r "id") = .error e ∧
        getBook w r σ = ⟨.nil, some ⟨some e, "Id should be an integer", 400⟩, w, σ⟩) ∨
      (∃ i, Atoi (muxVars r "id") = .ok i ∧ (∀ b ∈ σ.books, b.Id ≠ i) ∧
        getBook w r σ =
          ⟨.nil, some ⟨none, "Could not find book " ++ muxVars r "id", 404⟩, w, σ⟩) ∨
      (∃ i b, Atoi (muxVars r "id") = .ok i ∧ b ∈ σ.books ∧ b.Id = i ∧
        getBook w r σ = ⟨.book b, none, w, σ⟩)) ∧
    (((getBook w r σ).err.map handlerError.Code = some 400 ↔
        ∃ e, Atoi (muxVars r "id") = .error e) ∧
      ((getBook w r σ).err.map handlerError.Code = some 404 ↔
        ∃ i, Atoi (muxVars r "id") = .ok i ∧ ∀ b ∈ σ.books, b.Id ≠ i) ∧
      ((getBook w r σ).err = none ↔
        ∃ i, Atoi (muxVars r "id") = .ok i ∧ ∃ b ∈ σ.books, b.Id = i)) ∧
    ∀ fn : handler, fn = listBooks ∨ fn = getBook →
      ¬ ((fn w r σ).err = none ∧ (fn w r σ).response = Value.nil) ∧
      ((fn w r σ).err = none → jsonMarshal (fn w r σ).response ≠ none) ∧
      nilResponseLine ∉ emitted fn w r σ ∧
      ((ServeHTTP fn ResponseWriter.fresh r σ).1.status = 200 ∨
        (ServeHTTP fn ResponseWriter.fresh r σ).1.status = 400 ∨
        (ServeHTTP fn ResponseWriter.fresh r σ).1.status = 404) := by
  refine ⟨⟨by simp [listBooks], rfl⟩, (getBook_outcome w r σ).1, (getBook_outcome w r σ).2.1,
    (getBook_outcome w r σ).2.2, ?_⟩
  rintro fn (rfl | rfl)
  · refine ⟨by simp [listBooks], by simp [listBooks, jsonMarshal], ?_, Or.inl ?_⟩
    · rw [(listBooks_served w r σ).2]
      simp [(accessLine_ne_nilResponse r 200).symm]
    · rw [(listBooks_served _ r σ).1]
      exact (Write_fresh _ _ _).1
  · exact getBook_served w r σ

/-! ## The id counter -/

theorem wrapInt_of_range (n : Int) (hlo : minInt ≤ n) (hhi : n ≤ maxInt) : wrapInt n = n := by
  unfold minInt at hlo
  unfold maxInt at hhi
  unfold wrapInt
  omega

/-- One call of `getNextId` below the largest `int`: the counter goes up by one, the new
value is returned, nothing else changes. -/
theorem getNextId_step (σ : World) (hlo : minInt ≤ σ.id) (hhi : σ.id < maxInt) :
    (getNextId σ).1 = σ.id + 1 ∧ (getNextId σ).2 = { σ with id := σ.id + 1 } := by
  have hw : wrapInt (σ.id + 1) = σ.id + 1 :=
    wrapInt_of_range _ (by unfold minInt at *; omega) (by unfold maxInt at *; omega)
  simp [getNextId, hw]

theorem appendBooks_eq (entries : List (String × String)) (σ : World)
    (hlo : minInt ≤ σ.id) (hhi : σ.id + entries.length ≤ maxInt) :
    appendBooks entries σ =
      { σ with books := σ.books ++ numbered entries σ.id, id := σ.id + entries.length } := by
  induction entries generalizing σ with
  | nil => simp [appendBooks, numbered]
  | cons ta rest ih =>
    have hlen : ((ta :: rest).length : Int) = rest.length + 1 := by simp
    rw [hlen] at hhi
    have hstep := getNextId_step σ hlo (by omega)
    have h1 : appendBook ta.1 ta.2 σ =
        { σ with books := σ.books ++ [⟨ta.1, ta.2, σ.id + 1⟩], id := σ.id + 1 } := by
      simp [appendBook, hstep.1, hstep.2]
    rw [appendBooks, h1, ih _ (by simp only []; omega) (by simp only []; omega)]
    simp only [numbered, List.append_assoc, List.singleton_append, hlen]
    congr 1
    ring

theorem numbered_length (entries : List (String × String)) (c : Int) :
    (numbered entries c).length = entries.length := by
  induction entries generalizing c with
  | nil => rfl
  | cons ta rest ih => simp [numbered, ih]

theorem numbered_getElem? (entries : List (String × String)) (c : Int) (k : Nat) :
    (numbered entries c)[k]? =
      (entries[k]?).map (fun ta => (⟨ta.1, ta.2, c + k + 1⟩ : book)) := by
  induction entries generalizing c k with
  | nil => simp [numbered]
  | cons ta rest ih =>
    cases k with
    | zero => simp [numbered]
    | succ k =>
      simp only [numbered, List.getElem?_cons_succ, ih]
      congr 1
      funext ta
      congr 1
      push_cast
      ring

theorem numbered_ids (entries : List (String × String)) (c : Int) :
    (∀ i ∈ (numbered entries c).map book.Id, c < i) ∧
      ((numbered entries c).map book.Id).Pairwise (· < ·) := by
  induction entries generalizing c with
  | nil => simp [numbered]
  | cons ta rest ih =>
    obtain ⟨h1, h2⟩ := ih (c + 1)
    simp only [numbered, List.map_cons, List.mem_cons, List.pairwise_cons]
    refine ⟨?_, h1, h2⟩
    rintro i (rfl | hi)
    · omega
    · have := h1 i hi
      omega

/-- Claim C6. From the empty store with counter 0, after `n` bootstrap insertions (`n` is the
length of the slice, an `int`) the store holds `n` records, the counter is `n`, the `k`-th
record (1-based) is the `k`-th inserted pair with `Id = k`, and the ids are strictly
increasing and pairwise distinct; each call of `getNextId` below the largest `int` adds
exactly one to the counter and returns the new value, greater than the old one. -/
theorem bootstrap_ids (entries : List (String × String))
    (hn : (entries.length : Int) ≤ maxInt) :
    (appendBooks entries World.init).books.length = entries.length ∧
    (appendBooks entries World.init).id = entries.length ∧
    (∀ k : Nat, 1 ≤ k → k ≤ entries.length →
      ∃ b : book, (appendBooks entries World.init).books[k - 1]? = some b ∧ b.Id = k ∧
        entries[k - 1]? = some (b.Title, b.Author)) ∧
    ((appendBooks entries World.init).books.map book.Id).Pairwise (· < ·) ∧
    ((appendBooks entries World.init).books.map book.Id).Nodup ∧
    (∀ b ∈ (appendBooks entries World.init).books, 1 ≤ b.Id) ∧
    (∀ τ : World, minInt ≤ τ.id → τ.id < maxInt →
      (getNextId τ).1 = τ.id + 1 ∧ (getNextId τ).2 = { τ with id := τ.id + 1 } ∧
        τ.id < (getNextId τ).1) := by
  have heq := appendBooks_eq entries World.init (by decide)
    (by simp only [World.init]; omega)
  have hbooks : (appendBooks entries World.init).books = numbered entries 0 := by
    rw [heq]; simp [World.init]
  have hids := numbered_ids entries 0
  refine ⟨?_, ?_, ?_, ?_, ?_, ?_, ?_⟩
  · rw [hbooks, numbered_length]
  · rw [heq]; simp [World.init]
  · intro k hk1 hkn
    have hlt : k - 1 < entries.length := by omega
    rw [hbooks, numbered_getElem?, List.getElem?_eq_getElem hlt]
    refine ⟨_, rfl, ?_, rfl⟩
    simp only []
    omega
  · rw [hbooks]; exact hids.2
  · rw [hbooks]; exact hids.2.nodup
  · intro b hb
    rw [hbooks] at hb
    have := hids.1 b.Id (List.mem_map_of_mem _ hb)
    omega
  · intro τ hlo hhi
    have hs := getNextId_step τ hlo hhi
    exact ⟨hs.1, hs.2, by rw [hs.1]; omega⟩

/-- Claim C6 at the four insertions of `main`. -/
theorem bootstrap_ids_witness :
    (appendBooks [("Ender's Game", "Orson Scott Card"), ("Code Complete", "Steve McConnell"),
        ("World War Z", "Max Brooks"), ("Pragmatic Programmer", "David Thomas")]
      World.init = bootstrap World.init) ∧
    ((bootstrap World.init).books.map book.Id = [1, 2, 3, 4]) ∧
    ((appendBooks [("Ender's Game", "Orson Scott Card"), ("Code Complete", "Steve McConnell"),
        ("World War Z", "Max Brooks"), ("Pragmatic Programmer", "David Thomas")]
      World.init).books.map book.Id).Pairwise (· < ·) :=
  ⟨by decide, by decide,
    (bootstrap_ids [("Ender's Game", "Orson Scott Card"), ("Code Complete", "Steve McConnell"),
      ("World War Z", "Max Brooks"), ("Pragmatic Programmer", "David Thomas")]
      (by decide)).2.2.2.1⟩

/-! ## `strconv.Atoi` against the specification's notion of an integer -/

theorem digitsValue_ge (ds : List Char) (n : Nat) : n ≤ digitsValue ds n := by
  induction ds generalizing n with
  | nil => simp [digitsValue]
  | cons c cs ih =>
    have h := ih (n * 10 + (c.toNat - 48))
    simp only [digitsValue, List.foldl_cons] at h ⊢
    omega

theorem parseUintLoop_digits (ds : List Char) (n : Nat) (hall : ds.all Char.isDigit = true)
    (hn : n ≤ 18446744073709551615) :
    parseUintLoop ds n =
      if digitsValue ds n ≤ 18446744073709551615 then .ok (digitsValue ds n)
      else .error .ErrRange := by
  induction ds generalizing n with
  | nil => simp [parseUintLoop, digitsValue, hn]
  | cons c cs ih =>
    simp only [List.all_cons, Bool.and_eq_true] at hall
    have hge := digitsValue_ge cs (n * 10 + (c.toNat - 48))
    have hdv : digitsValue (c :: cs) n = digitsValue cs (n * 10 + (c.toNat - 48)) := rfl
    simp only [parseUintLoop, hall.1, if_true, hdv]
    by_cases h1 : n ≥ 1844674407370955162
    · rw [if_pos h1, if_neg (by omega)]
    · rw [if_neg h1]
      by_cases h2 : n * 10 + (c.toNat - 48) > 18446744073709551615
      · simp only [h2, if_true]
        rw [if_neg (by omega)]
      · simp only [h2, if_false]
        exact ih _ hall.2 (by omega)

theorem parseUintLoop_nondigit (ds : List Char) (n : Nat) (hall : ds.all Char.isDigit = false) :
    ∃ e, parseUintLoop ds n = .error e := by
  induction ds generalizing n with
  | nil => simp at hall
  | cons c cs ih =>
    by_cases hc : c.isDigit = true
    · have hcs : cs.all Char.isDigit = false := by simpa [hc] using hall
      simp only [parseUintLoop, hc, if_true]
      split
      · exact ⟨_, rfl⟩
      · split
        · exact ⟨_, rfl⟩
        · exact ih _ hcs
    · simp [parseUintLoop, hc]

/-- The part of `Atoi` after the sign has been taken off. -/
theorem Atoi_core (s : String) (neg : Bool) (ds : List Char) (i : Int) :
    (if ds = [] then (.error ⟨"Atoi", s, .ErrSyntax⟩ : Except NumError Int)
      else
        match parseUintLoop ds 0 with
        | .error e => .error ⟨"Atoi", s, e⟩
        | .ok un =>
          if !neg && un ≥ 9223372036854775808 then .error ⟨"Atoi", s, .ErrRange⟩
          else if neg && un > 9223372036854775808 then .error ⟨"Atoi", s, .ErrRange⟩
          else .ok (if neg then -(un : Int) else (un : Int))) = .ok i ↔
      ((!ds.isEmpty && ds.all Char.isDigit) = true ∧
        (if neg then -(digitsValue ds 0 : Int) else (digitsValue ds 0 : Int)) = i ∧
        minInt ≤ i ∧ i ≤ maxInt) := by
  by_cases hds : ds = []
  · simp [hds]
  · have hne : ds.isEmpty = false := by cases ds <;> simp_all
    rw [if_neg hds]
    cases hall : ds.all Char.isDigit with
    | false =>
      obtain ⟨e, he⟩ := parseUintLoop_nondigit ds 0 hall
      simp [he, hne]
    | true =>
      rw [parseUintLoop_digits ds 0 hall (by omega)]
      simp only [hne, Bool.not_false, Bool.and_self, true_and, minInt, maxInt]
      by_cases hv : digitsValue ds 0 ≤ 18446744073709551615
      · rw [if_pos hv]
        cases neg with
        | false =>
          simp only [Bool.not_false, Bool.true_and, Bool.false_and, decide_eq_true_eq]
          by_cases h2 : digitsValue ds 0 ≥ 9223372036854775808
          · simp [h2]; omega
          · simp [h2]; omega
        | true =>
          simp only [Bool.not_true, Bool.false_and, Bool.true_and, decide_eq_true_eq]
          by_cases h2 : digitsValue ds 0 > 9223372036854775808
          · simp [h2]; omega
          · simp [h2]; omega
      · rw [if_neg hv]
        cases neg <;> simp <;> omega

theorem Atoi_ok_iff (s : String) (i : Int) :
    Atoi s = .ok i ↔
      (wellFormedInteger s = true ∧ integerValue s = i ∧ minInt ≤ i ∧ i ≤ maxInt) := by
  unfold Atoi wellFormedInteger integerValue
  cases hs : s.data with
  | nil => simp
  | cons c cs =>
    simp only []
    by_cases hm : c = '-'
    · subst hm
      have := Atoi_core s true cs i
      simpa using this
    · by_cases hp : c = '+'
      · subst hp
        have := Atoi_core s false cs i
        simpa using this
      · have := Atoi_core s false (c :: cs) i
        simpa [hm, hp] using this


/-! ## `GET /books/{id}`: the failures -/

/-- Claim C2, refuted. The segment 9223372036854775808 is a well-formed integer whose value is
the id of no bootstrap record, yet the answer is 400, not 404, because the value does not
fit an `int`; and where the answer is 404 (segment 99) the body ends with the line feed
`http.Error` prints, so it is not exactly the JSON text. -/
theorem getBook_out_of_range_is_400 :
    wellFormedInteger "9223372036854775808" = true ∧
    (∀ b ∈ (bootstrap World.init).books, b.Id ≠ integerValue "9223372036854775808") ∧
    (ServeHTTP getBook ResponseWriter.fresh (Request.books "9223372036854775808")
      (bootstrap World.init)).1.status = 400 ∧
    (ServeHTTP getBook ResponseWriter.fresh (Request.books "99")
      (bootstrap World.init)).1.status = 404 ∧
    (ServeHTTP getBook ResponseWriter.fresh (Request.books "99")
      (bootstrap World.init)).1.Body = "\x7b\"error\":\"Could not find book 99\"\x7d\n" ∧
    (ServeHTTP getBook ResponseWriter.fresh (Request.books "99")
      (bootstrap World.init)).1.Body ≠ "\x7b\"error\":\"Could not find book 99\"\x7d" := by
  refine ⟨by decide, by decide, by rfl, by rfl, by rfl, by decide⟩

/-- Claim C2, amended. For every store and every path segment that is a well-formed integer
whose value fits a 64-bit `int` and is the id of no record, `getBook` fails with code 404 and
the adapter answers 404 with the body `{"error":"Could not find book <segment>"}` followed
by a line feed, which read as JSON is the object with the single key `error` and that
message as value. -/
theorem getBook_absent_is_404 (r : Request) (σ : World)
    (hwf : wellFormedInteger (muxVars r "id") = true)
    (hlo : minInt ≤ integerValue (muxVars r "id"))
    (hhi : integerValue (muxVars r "id") ≤ maxInt)
    (habs : ∀ b ∈ σ.books, b.Id ≠ integerValue (muxVars r "id")) :
    (∀ w, (getBook w r σ).err =
      some ⟨none, "Could not find book " ++ muxVars r "id", 404⟩) ∧
    (ServeHTTP getBook ResponseWriter.fresh r σ).1.status = 404 ∧
    (ServeHTTP getBook ResponseWriter.fresh r σ).1.Body =
      "\x7b\"error\":\"Could not find book " ++ muxVars r "id" ++ "\"\x7d" ++ "\n" ∧
    errorObject? (ServeHTTP getBook ResponseWriter.fresh r σ).1.Body =
      some (.str ("Could not find book " ++ muxVars r "id")) := by
  have hparse : Atoi (muxVars r "id") = .ok (integerValue (muxVars r "id")) :=
    (Atoi_ok_iff _ _).mpr ⟨hwf, rfl, hlo, hhi⟩
  have hg := fun w => getBook_of_absent w r σ _ hparse habs
  have hserve := ServeHTTP_of_err getBook ResponseWriter.fresh r σ _
    (by rw [hg ResponseWriter.fresh])
  have hbody : (ServeHTTP getBook ResponseWriter.fresh r σ).1.Body =
      "\x7b\"error\":\"" ++ ("Could not find book " ++ muxVars r "id") ++ "\"\x7d" ++ "\n" := by
    rw [hserve, hg]; exact (httpError_fresh _ _).2
  refine ⟨fun w => by rw [hg w], ?_, ?_, ?_⟩
  · rw [hserve, hg]; exact (httpError_fresh _ _).1
  · rw [hbody, show ("\x7b\"error\":\"Could not find book " : String) =
      "\x7b\"error\":\"" ++ "Could not find book " from by decide]
    simp only [String.append_assoc]
  · rw [hbody]
    exact errorObject_plain _ (plainText_append _ _ (by decide) (plainText_of_wellFormed _ hwf))

/-- Claim C2 (amended) at `GET /books/99` after the bootstrap. -/
theorem getBook_absent_is_404_witness :
    (ServeHTTP getBook ResponseWriter.fresh (Request.books "99") (bootstrap World.init)).1.status
      = 404 ∧
    (ServeHTTP getBook ResponseWriter.fresh (Request.books "99") (bootstrap World.init)).1.Body =
      "\x7b\"error\":\"Could not find book " ++ muxVars (Request.books "99") "id" ++ "\"\x7d" ++ "\n" :=
  ⟨(getBook_absent_is_404 (Request.books "99") (bootstrap World.init) (by decide) (by decide)
      (by decide) (by decide)).2.1,
    (getBook_absent_is_404 (Request.books "99") (bootstrap World.init) (by decide) (by decide)
      (by decide) (by decide)).2.2.1⟩

/-- Claim C3, refuted. For the segment abc, which `strconv.Atoi` rejects, the body is the JSON
text followed by the line feed `http.Error` prints, so it is not exactly the JSON text. -/
theorem non_integer_body_ends_with_newline :
    (∃ e, Atoi "abc" = .error e) ∧
    (ServeHTTP getBook ResponseWriter.fresh (Request.books "abc")
      (bootstrap World.init)).1.status = 400 ∧
    (ServeHTTP getBook ResponseWriter.fresh (Request.books "abc")
      (bootstrap World.init)).1.Body = "\x7b\"error\":\"Id should be an integer\"\x7d\n" ∧
    (ServeHTTP getBook ResponseWriter.fresh (Request.books "abc")
      (bootstrap World.init)).1.Body ≠ "\x7b\"error\":\"Id should be an integer\"\x7d" := by
  refine ⟨⟨_, rfl⟩, by rfl, by rfl, by decide⟩

/-- Claim C3, amended. For every store and every path segment that `strconv.Atoi` rejects, the
adapter answers 400 with the body `{"error":"Id should be an integer"}` followed by a line
feed (read as JSON: the object with the single key `error` and that message), whatever the
store holds; `getBook` fails with code 400 only for such segments; and
`strconv.Atoi` rejects exactly the segments that are not a well-formed integer within the
64-bit `int` range. -/
theorem getBook_non_integer_is_400 (w : ResponseWriter) (r : Request) (σ : World) :
    ((∃ e, Atoi (muxVars r "id") = .error e) →
      (∃ e, (getBook w r σ).err = some ⟨some e, "Id should be an integer", 400⟩) ∧
      (ServeHTTP getBook ResponseWriter.fresh r σ).1.status = 400 ∧
      (ServeHTTP getBook ResponseWriter.fresh r σ).1.Body =
        "\x7b\"error\":\"Id should be an integer\"\x7d\n" ∧
      errorObject? (ServeHTTP getBook ResponseWriter.fresh r σ).1.Body =
        some (.str "Id should be an integer")) ∧
    ((getBook w r σ).err.map handlerError.Code = some 400 ↔
      ∃ e, Atoi (muxVars r "id") = .error e) ∧
    ((∃ e, Atoi (muxVars r "id") = .error e) ↔
      ¬ (wellFormedInteger (muxVars r "id") = true ∧
        minInt ≤ integerValue (muxVars r "id") ∧ integerValue (muxVars r "id") ≤ maxInt)) := by
  refine ⟨?_, (getBook_outcome w r σ).2.2.1, ?_⟩
  · rintro ⟨e, he⟩
    have hg := fun v => getBook_of_error v r σ e he
    have hserve := ServeHTTP_of_err getBook ResponseWriter.fresh r σ _
      (by rw [hg ResponseWriter.fresh])
    have hbody : (ServeHTTP getBook ResponseWriter.fresh r σ).1.Body =
        "\x7b\"error\":\"Id should be an integer\"\x7d\n" := by
      rw [hserve, hg]; exact (httpError_fresh _ _).2
    refine ⟨⟨e, by rw [hg w]⟩, ?_, hbody, ?_⟩
    · rw [hserve, hg]; exact (httpError_fresh _ _).1
    · rw [hbody]; rfl
  · constructor
    · rintro ⟨e, he⟩ ⟨hwf, hlo, hhi⟩
      have := (Atoi_ok_iff _ _).mpr ⟨hwf, rfl, hlo, hhi⟩
      rw [he] at this
      cases this
    · intro hnot
      cases h : Atoi (muxVars r "id") with
      | error e => exact ⟨e, rfl⟩
      | ok i =>
        obtain ⟨h1, h2, h3, h4⟩ := (Atoi_ok_iff _ _).mp h
        exact absurd ⟨h1, by rw [h2]; exact h3, by rw [h2]; exact h4⟩ hnot

/-- Claim C3 (amended) at `GET /books/abc` after the bootstrap. -/
theorem getBook_non_integer_is_400_witness :
    (ServeHTTP getBook ResponseWriter.fresh (Request.books "abc")
      (bootstrap World.init)).1.status = 400 ∧
    (ServeHTTP getBook ResponseWriter.fresh (Request.books "abc")
      (bootstrap World.init)).1.Body = "\x7b\"error\":\"Id should be an integer\"\x7d\n" ∧
    errorObject? (ServeHTTP getBook ResponseWriter.fresh (Request.books "abc")
      (bootstrap World.init)).1.Body = some (.str "Id should be an integer") :=
  ((getBook_non_integer_is_400 ResponseWriter.fresh (Request.books "abc")
    (bootstrap World.init)).1 ⟨_, rfl⟩).2

/-! ## Failure bodies -/

/-- Claim C5, refuted. A handler that returns a nil value, or a value `json.Marshal` rejects,
gets a plain-text body that is no JSON text at all, so no object with the single key
`error`; and a `handlerError` whose message holds a double quote gets a body that is a JSON
object with two keys, or no JSON text. -/
theorem failure_body_not_error_object :
    ((ServeHTTP (constHandler .nil none) ResponseWriter.fresh (Request.books "1")
        World.init).1.Body = "Internal server error. Check the logs.\n" ∧
      parseJson (ServeHTTP (constHandler .nil none) ResponseWriter.fresh (Request.books "1")
        World.init).1.Body = none ∧
      errorObject? (ServeHTTP (constHandler .nil none) ResponseWriter.fresh (Request.books "1")
        World.init).1.Body = none) ∧
    ((ServeHTTP (constHandler (.other none) none) ResponseWriter.fresh (Request.books "1")
        World.init).1.Body = "Error marshalling JSON\n" ∧
      parseJson (ServeHTTP (constHandler (.other none) none) ResponseWriter.fresh
        (Request.books "1") World.init).1.Body = none ∧
      errorObject? (ServeHTTP (constHandler (.other none) none) ResponseWriter.fresh
        (Request.books "1") World.init).1.Body = none) ∧
    ((ServeHTTP (constHandler .nil (some ⟨none, "a\",\"x\":\"b", 400⟩)) ResponseWriter.fresh
        (Request.books "1") World.init).1.Body = "\x7b\"error\":\"a\",\"x\":\"b\"\x7d\n" ∧
      parseJson (ServeHTTP (constHandler .nil (some ⟨none, "a\",\"x\":\"b", 400⟩))
        ResponseWriter.fresh (Request.books "1") World.init).1.Body =
          some (.obj [("error", .str "a"), ("x", .str "b")]) ∧
      errorObject? (ServeHTTP (constHandler .nil (some ⟨none, "a\",\"x\":\"b", 400⟩))
        ResponseWriter.fresh (Request.books "1") World.init).1.Body = none) ∧
    ((ServeHTTP (constHandler .nil (some ⟨none, "no \"id\"", 400⟩)) ResponseWriter.fresh
        (Request.books "1") World.init).1.Body = "\x7b\"error\":\"no \"id\"\"\x7d\n" ∧
      errorObject? (ServeHTTP (constHandler .nil (some ⟨none, "no \"id\"", 400⟩))
        ResponseWriter.fresh (Request.books "1") World.init).1.Body = none) := by
  refine ⟨⟨by rfl, by rfl, by rfl⟩, ⟨by rfl, by rfl, by rfl⟩, ⟨by rfl, by rfl, by rfl⟩,
    ⟨by rfl, by rfl⟩⟩

/-- Claim C5, amended. Let the handler have written nothing to the response itself. When it
returned a `handlerError`, `ServeHTTP` answers with the failure's `Code` whenever that is a
final status code (200 to 999); and when moreover the `Code` allows a body (not 204, not
304) and the `Message` holds no double quote, backslash or control character, the body is
`{"error":"<Message>"}` and a line feed, a JSON object with the single key `error` whose
value is the `Message`. Every failure of `getBook` is of that kind. For a nil success value
and for a serialization failure the answer is 500 with a plain-text body that is no JSON
text. -/
theorem failure_responses (fn : handler) (w : ResponseWriter) (r : Request) (σ : World) :
    (∀ e, (fn w r σ).err = some e → (fn w r σ).w.Code = none → finalStatus e.Code = true →
      (ServeHTTP fn w r σ).1.status = e.Code) ∧
    (∀ e, (fn w r σ).err = some e → (fn w r σ).w.Code = none → (fn w r σ).w.Body = "" →
      statusWithBody e.Code = true → plainText e.Message = true →
      (ServeHTTP fn w r σ).1.Body = "\x7b\"error\":\"" ++ e.Message ++ "\"\x7d" ++ "\n" ∧
      errorObject? (ServeHTTP fn w r σ).1.Body = some (.str e.Message)) ∧
    ((fn w r σ).err = none → (fn w r σ).response = Value.nil →
      (fn w r σ).w.Code = none → (fn w r σ).w.Body = "" →
      (ServeHTTP fn w r σ).1.status = 500 ∧
      (ServeHTTP fn w r σ).1.Body = "Internal server error. Check the logs.\n" ∧
      parseJson (ServeHTTP fn w r σ).1.Body = none) ∧
    ((fn w r σ).err = none → (fn w r σ).response ≠ Value.nil →
      jsonMarshal (fn w r σ).response = none →
      (fn w r σ).w.Code = none → (fn w r σ).w.Body = "" →
      (ServeHTTP fn w r σ).1.status = 500 ∧
      (ServeHTTP fn w r σ).1.Body = "Error marshalling JSON\n" ∧
      parseJson (ServeHTTP fn w r σ).1.Body = none) ∧
    (∀ e, (getBook ResponseWriter.fresh r σ).err = some e →
      (e.Code = 400 ∨ e.Code = 404) ∧ plainText e.Message = true ∧
      (ServeHTTP getBook ResponseWriter.fresh r σ).1.status = e.Code ∧
      (ServeHTTP getBook ResponseWriter.fresh r σ).1.Body =
        "\x7b\"error\":\"" ++ e.Message ++ "\"\x7d" ++ "\n" ∧
      errorObject? (ServeHTTP getBook ResponseWriter.fresh r σ).1.Body =
        some (.str e.Message)) := by
  have hstatus : ∀ (g : handler) (v : ResponseWriter) (e : handlerError),
      (g v r σ).err = some e → (g v r σ).w.Code = none →
      (ServeHTTP g v r σ).1.status = e.Code := by
    intro g v e he hc
    rw [ServeHTTP_of_err g v r σ e he]
    exact httpError_status _ _ _ hc
  have hbody : ∀ (g : handler) (v : ResponseWriter) (e : handlerError),
      (g v r σ).err = some e → (g v r σ).w.Body = "" → plainText e.Message = true →
      (ServeHTTP g v r σ).1.Body = "\x7b\"error\":\"" ++ e.Message ++ "\"\x7d" ++ "\n" ∧
      errorObject? (ServeHTTP g v r σ).1.Body = some (.str e.Message) := by
    intro g v e he hb hplain
    have hB : (ServeHTTP g v r σ).1.Body = "\x7b\"error\":\"" ++ e.Message ++ "\"\x7d" ++ "\n" := by
      rw [ServeHTTP_of_err g v r σ e he]
      simp only [httpError_Body, hb, String.empty_append]
    exact ⟨hB, by rw [hB]; exact errorObject_plain e.Message hplain⟩
  refine ⟨fun e he hc _ => hstatus fn w e he hc, fun e he _ hb _ hplain => hbody fn w e he hb hplain,
    ?_, ?_, ?_⟩
  · intro he hn hc hb
    rw [ServeHTTP_of_nil fn w r σ he hn]
    have hB : (httpError (fn w r σ).w "Internal server error. Check the logs." 500).Body =
        "Internal server error. Check the logs.\n" := by
      simp only [httpError_Body, hb, String.empty_append]
      rfl
    exact ⟨httpError_status _ _ _ hc, hB, by rw [hB]; rfl⟩
  · intro he hn hm hc hb
    rw [ServeHTTP_of_marshal_error fn w r σ he hn hm]
    have hB : (httpError (fn w r σ).w "Error marshalling JSON" 500).Body =
        "Error marshalling JSON\n" := by
      simp only [httpError_Body, hb, String.empty_append]
      rfl
    exact ⟨httpError_status _ _ _ hc, hB, by rw [hB]; rfl⟩
  · intro e he
    have hw := (getBook_frame ResponseWriter.fresh r σ).2
    have hkind : (e.Code = 400 ∨ e.Code = 404) ∧ plainText e.Message = true := by
      rcases (getBook_outcome ResponseWriter.fresh r σ).2.1 with
        ⟨e1, _, hg⟩ | ⟨i, hi, _, hg⟩ | ⟨i, b, _, _, _, hg⟩
      · rw [hg] at he
        simp only [Option.some.injEq] at he
        subst he
        exact ⟨Or.inl rfl, by show plainText "Id should be an integer" = true; decide⟩
      · rw [hg] at he
        simp only [Option.some.injEq] at he
        subst he
        exact ⟨Or.inr rfl, plainText_append _ _ (by decide)
          (plainText_of_wellFormed _ ((Atoi_ok_iff _ _).mp hi).1)⟩
      · rw [hg] at he
        cases he
    obtain ⟨h1, h2⟩ := hbody getBook ResponseWriter.fresh e he (by rw [hw]; rfl) hkind.2
    exact ⟨hkind.1, hkind.2, hstatus getBook ResponseWriter.fresh e he (by rw [hw]; rfl), h1, h2⟩

/-- Claim C5 (amended) at a handler that fails with code 404 and a plain message. -/
theorem failure_responses_witness :
    (ServeHTTP (constHandler .nil (some ⟨none, "Could not find book 7", 404⟩))
      ResponseWriter.fresh (Request.books "7") World.init).1.status = 404 ∧
    (ServeHTTP (constHandler .nil (some ⟨none, "Could not find book 7", 404⟩))
      ResponseWriter.fresh (Request.books "7") World.init).1.Body =
        "\x7b\"error\":\"" ++ "Could not find book 7" ++ "\"\x7d" ++ "\n" ∧
    errorObject? (ServeHTTP (constHandler .nil (some ⟨none, "Could not find book 7", 404⟩))
      ResponseWriter.fresh (Request.books "7") World.init).1.Body =
        some (.str "Could not find book 7") :=
  ⟨(failure_responses (constHandler .nil (some ⟨none, "Could not find book 7", 404⟩))
      ResponseWriter.fresh (Request.books "7") World.init).1 _ rfl rfl (by decide),
    (failure_responses (constHandler .nil (some ⟨none, "Could not find book 7", 404⟩))
      ResponseWriter.fresh (Request.books "7") World.init).2.1 _ rfl rfl rfl (by decide)
      (by decide)⟩

end Books
